import Mathlib

/-! Verification development for the ivy paddle backend excerpt:
`ivy/functional/backends/paddle/elementwise.py` (a dtype-promotion/dispatch
adapter over the paddle tensor library) and
`ivy_tests/test_ivy/helpers/test_parameter_flags.py` (test-flag holders and
strategy bookkeeping).

Tensors are modelled one-dimensionally: a dtype together with a flat list of
scalar values.  Float values are modelled as extended rationals
(finite / +inf / -inf / NaN); rounding of the underlying binary formats is
abstracted away, so casts between float dtypes are value-preserving.  The
claims verified here concern dtype bookkeeping, dispatch structure and
special-value (NaN / infinity) logic, none of which depend on rounding. -/

namespace IvyPaddle

/-- The paddle dtypes that appear in the adapter module. -/
inductive DType where
  | bool | int8 | int16 | int32 | int64 | uint8
  | float16 | bfloat16 | float32 | float64
  | complex64 | complex128
deriving DecidableEq

/-- Kind of a dtype: 0 = boolean, 1 = integer, 2 = floating, 3 = complex. -/
def DType.kind : DType → Nat
  | .bool => 0
  | .int8 | .int16 | .int32 | .int64 | .uint8 => 1
  | .float16 | .bfloat16 | .float32 | .float64 => 2
  | .complex64 | .complex128 => 3

/-- Tests whether a dtype is complex (the model of paddle.is_complex, which
inspects the tensor's dtype). -/
def DType.isComplexB (d : DType) : Bool := d.kind = 3

/-- Rank of a signed integer dtype inside the integer promotion ladder. -/
def DType.intRank : DType → Nat
  | .int8 => 1 | .int16 => 2 | .int32 => 3 | .int64 => 4 | _ => 0

/-- Rank of a float dtype inside the float promotion ladder (float16 and
bfloat16 share a rank; their join is float32). -/
def DType.floatRank : DType → Nat
  | .float16 => 1 | .bfloat16 => 1 | .float32 => 2 | .float64 => 3 | _ => 0

/-- Promotion of two integer dtypes: uint8 joined with int8 gives int16,
uint8 joined with a wider signed type gives that type, signed types join by
rank. -/
def promoteInts (a b : DType) : DType :=
  if a = b then a
  else if a = .uint8 then (if b = .int8 then .int16 else b)
  else if b = .uint8 then (if a = .int8 then .int16 else a)
  else if a.intRank ≥ b.intRank then a else b

/-- Promotion of two float dtypes by rank; float16 and bfloat16 join to
float32. -/
def promoteFloats (a b : DType) : DType :=
  if a = b then a
  else if a.floatRank = b.floatRank then .float32
  else if a.floatRank ≥ b.floatRank then a else b

/-- Modelled from the spec: the dtype-promotion rule set ("the rule set
determining the output numeric type when operands of differing types are
combined") used by ivy.promote_types_of_inputs, whose implementation is not
part of the excerpt.  Boolean defers to the other operand, integers promote
along the signed ladder with uint8 handled specially, floats promote by
width with the float16/bfloat16 join at float32, mixed integer/float gives
the float dtype, and any complex operand yields complex64 unless a 64-bit
float or complex128 participates, in which case complex128. -/
def promoteTypes (a b : DType) : DType :=
  if a = b then a
  else if a.kind = 0 then b
  else if b.kind = 0 then a
  else if a.kind = 3 ∨ b.kind = 3 then
    (if a ∈ [DType.float64, DType.complex128] ∨ b ∈ [DType.float64, DType.complex128]
     then .complex128 else .complex64)
  else if a.kind = 2 ∧ b.kind = 2 then promoteFloats a b
  else if a.kind = 2 then a
  else if b.kind = 2 then b
  else promoteInts a b

/-- Two's-complement wraparound of an integer value into the range of an
integer dtype; identity for non-integer dtypes. -/
def wrapInt (d : DType) (n : ℤ) : ℤ :=
  match d with
  | .uint8 => n % 256
  | .int8 => (n + 128) % 256 - 128
  | .int16 => (n + 32768) % 65536 - 32768
  | .int32 => (n + 2 ^ 31) % 2 ^ 32 - 2 ^ 31
  | .int64 => (n + 2 ^ 63) % 2 ^ 64 - 2 ^ 63
  | _ => n

/-- Extended float value: a finite rational, an infinity, or NaN.  Rounding
of the binary formats is abstracted away. -/
inductive FVal where
  | finite (q : ℚ)
  | posInf
  | negInf
  | nan
deriving DecidableEq

instance : Inhabited FVal := ⟨.finite 0⟩

/-- IEEE-style negation on extended values. -/
def fneg : FVal → FVal
  | .finite q => .finite (-q)
  | .posInf => .negInf
  | .negInf => .posInf
  | .nan => .nan

/-- IEEE-style addition: NaN propagates, opposite infinities give NaN. -/
def fadd : FVal → FVal → FVal
  | .nan, _ => .nan
  | _, .nan => .nan
  | .finite a, .finite b => .finite (a + b)
  | .finite _, .posInf => .posInf
  | .posInf, .finite _ => .posInf
  | .finite _, .negInf => .negInf
  | .negInf, .finite _ => .negInf
  | .posInf, .posInf => .posInf
  | .negInf, .negInf => .negInf
  | .posInf, .negInf => .nan
  | .negInf, .posInf => .nan

/-- IEEE-style subtraction. -/
def fsub (a b : FVal) : FVal := fadd a (fneg b)

/-- IEEE-style multiplication: NaN propagates, infinity times zero is NaN. -/
def fmul : FVal → FVal → FVal
  | .nan, _ => .nan
  | _, .nan => .nan
  | .finite a, .finite b => .finite (a * b)
  | .finite a, .posInf => if 0 < a then .posInf else if a < 0 then .negInf else .nan
  | .finite a, .negInf => if 0 < a then .negInf else if a < 0 then .posInf else .nan
  | .posInf, .finite b => if 0 < b then .posInf else if b < 0 then .negInf else .nan
  | .negInf, .finite b => if 0 < b then .negInf else if b < 0 then .posInf else .nan
  | .posInf, .posInf => .posInf
  | .negInf, .negInf => .posInf
  | .posInf, .negInf => .negInf
  | .negInf, .posInf => .negInf

/-- IEEE-style comparison: NaN is unordered (any comparison with it is
false). -/
def fleq : FVal → FVal → Bool
  | .nan, _ => false
  | _, .nan => false
  | .negInf, _ => true
  | _, .posInf => true
  | .posInf, _ => false
  | .finite _, .negInf => false
  | .finite a, .finite b => decide (a ≤ b)

/-- IEEE-style strict comparison. -/
def flt : FVal → FVal → Bool
  | .nan, _ => false
  | _, .nan => false
  | .negInf, .negInf => false
  | .negInf, _ => true
  | _, .negInf => false
  | .posInf, _ => false
  | .finite _, .posInf => true
  | .finite a, .finite b => decide (a < b)

/-- Truncation of a rational toward zero (C-style float-to-int cast). -/
def ratTrunc (q : ℚ) : ℤ := if 0 ≤ q then ⌊q⌋ else ⌈q⌉

/-- One element of a tensor: an integer, a boolean, an extended float, or a
complex pair of extended floats. -/
inductive Scalar where
  | int (n : ℤ)
  | bool (b : Bool)
  | real (v : FVal)
  | complex (re im : FVal)
deriving DecidableEq

instance : Inhabited Scalar := ⟨.int 0⟩

/-- Truthiness of a scalar, as used by paddle's logical kernels: nonzero is
true; NaN and infinities are nonzero and hence true. -/
def truthy : Scalar → Bool
  | .int n => decide (n ≠ 0)
  | .bool b => b
  | .real v => decide (v ≠ .finite 0)
  | .complex re im => decide (re ≠ .finite 0) || decide (im ≠ .finite 0)

/-- Extended-float view of a scalar, used when casting into a float slot. -/
def scalarToF : Scalar → FVal
  | .int n => .finite n
  | .bool b => .finite (if b then 1 else 0)
  | .real v => v
  | .complex re _ => re

/-- Integer view of a scalar (floats truncate toward zero; non-finite floats
are abstracted to 0, a value no claim depends on). -/
def scalarToI : Scalar → ℤ
  | .int n => n
  | .bool b => if b then 1 else 0
  | .real (.finite q) => ratTrunc q
  | .real _ => 0
  | .complex (.finite q) _ => ratTrunc q
  | .complex _ _ => 0

/-- Cast of one scalar value into a target dtype (the elementwise action of
Tensor.astype): booleans by truthiness, integers with two's-complement
wraparound, floats exactly (rounding abstracted), complex by pairing with a
zero imaginary part or dropping to the real part. -/
def castScalar (d : DType) (s : Scalar) : Scalar :=
  match d.kind with
  | 0 => .bool (truthy s)
  | 1 => .int (wrapInt d (scalarToI s))
  | 2 => .real (scalarToF s)
  | _ =>
    match s with
    | .complex re im => .complex re im
    | s => .complex (scalarToF s) (.finite 0)

/-- A tensor of the model: a dtype together with a flat (one-dimensional)
list of element values. -/
structure Tensor where
  dtype : DType
  data : List Scalar
deriving DecidableEq

instance : Inhabited Tensor := ⟨.float32, []⟩

/-- Tensor.astype: retag the dtype and cast every element. -/
def astype (x : Tensor) (d : DType) : Tensor := ⟨d, x.data.map (castScalar d)⟩

/-- Modelled from the spec: paddle_backend.broadcast_arrays, whose
implementation is not part of the excerpt — in the one-dimensional model a
length-1 tensor stretches to the other operand's length and equal lengths
pass through (incompatible lengths, on which the backend raises, are
returned unchanged and never arise under the claims' hypotheses). -/
def broadcast_arrays (x1 x2 : Tensor) : Tensor × Tensor :=
  if x1.data.length = x2.data.length then (x1, x2)
  else if x1.data.length = 1 then
    (⟨x1.dtype, List.replicate x2.data.length x1.data.headI⟩, x2)
  else if x2.data.length = 1 then
    (x1, ⟨x2.dtype, List.replicate x1.data.length x2.data.headI⟩)
  else (x1, x2)

/-- A Python value flowing into the adapter's operations: a tensor or a bare
Python scalar (int or float). -/
inductive PyVal where
  | tensor (t : Tensor)
  | pyInt (n : ℤ)
  | pyFloat (v : FVal)
deriving DecidableEq

/-- Dtype a bare Python scalar adopts next to a tensor of dtype `t`: an int
scalar adopts any numeric dtype, a float scalar adopts float and complex
dtypes; otherwise the default dtype of the scalar's kind (int32 / float32)
is used. -/
def scalarDtypeFor (t : DType) : PyVal → DType
  | .pyInt _ => if t.kind ≥ 1 then t else .int32
  | .pyFloat _ => if t.kind ≥ 2 then t else .float32
  | .tensor u => u.dtype

/-- Materialisation of a Python value as a tensor of dtype `d` (a bare
scalar becomes a one-element tensor). -/
def pyToTensor (d : DType) : PyVal → Tensor
  | .tensor t => astype t d
  | .pyInt n => ⟨d, [castScalar d (.int n)]⟩
  | .pyFloat v => ⟨d, [castScalar d (.real v)]⟩

/-- Modelled from the spec: ivy.promote_types_of_inputs, whose
implementation is not part of the excerpt — it promotes the two operands'
dtypes per the promotion rule set, materialises bare Python scalars next to
the tensor operand, and returns both operands cast to the promoted
dtype. -/
def promote_types_of_inputs (x1 x2 : PyVal) : Tensor × Tensor :=
  match x1, x2 with
  | .tensor t1, .tensor t2 =>
    let d := promoteTypes t1.dtype t2.dtype
    (astype t1 d, astype t2 d)
  | .tensor t1, s =>
    let d := promoteTypes t1.dtype (scalarDtypeFor t1.dtype s)
    (astype t1 d, pyToTensor d s)
  | s, .tensor t2 =>
    let d := promoteTypes (scalarDtypeFor t2.dtype s) t2.dtype
    (pyToTensor d s, astype t2 d)
  | s1, s2 =>
    let d := promoteTypes (scalarDtypeFor .bool s1) (scalarDtypeFor .bool s2)
    (pyToTensor d s1, pyToTensor d s2)

/-! Native paddle kernels, modelled elementwise over the scalar model.  A
binary kernel acts on already-promoted, already-broadcast operands and keeps
the first operand's dtype; comparison and logical kernels produce boolean
tensors. -/

namespace paddle

/-- Scalar action of paddle.add at a dtype (integer results wrap). -/
def scalarAdd (d : DType) : Scalar → Scalar → Scalar
  | .int a, .int b => .int (wrapInt d (a + b))
  | .real a, .real b => .real (fadd a b)
  | .complex ar ai, .complex br bi => .complex (fadd ar br) (fadd ai bi)
  | .bool a, .bool b => .bool (a || b)
  | s, _ => s

/-- Scalar action of paddle.subtract at a dtype. -/
def scalarSub (d : DType) : Scalar → Scalar → Scalar
  | .int a, .int b => .int (wrapInt d (a - b))
  | .real a, .real b => .real (fsub a b)
  | .complex ar ai, .complex br bi => .complex (fsub ar br) (fsub ai bi)
  | .bool a, .bool b => .bool (a != b)
  | s, _ => s

/-- Scalar action of paddle.multiply at a dtype. -/
def scalarMul (d : DType) : Scalar → Scalar → Scalar
  | .int a, .int b => .int (wrapInt d (a * b))
  | .real a, .real b => .real (fmul a b)
  | .complex ar ai, .complex br bi =>
    .complex (fsub (fmul ar br) (fmul ai bi)) (fadd (fmul ar bi) (fmul ai br))
  | .bool a, .bool b => .bool (a && b)
  | s, _ => s

/-- Scalar less-or-equal used by the comparison kernels. -/
def scalarLe : Scalar → Scalar → Bool
  | .int a, .int b => decide (a ≤ b)
  | .real a, .real b => fleq a b
  | .bool a, .bool b => !a || b
  | _, _ => false

/-- Scalar strict less-than used by the comparison kernels. -/
def scalarLt : Scalar → Scalar → Bool
  | .int a, .int b => decide (a < b)
  | .real a, .real b => flt a b
  | .bool a, .bool b => !a && b
  | _, _ => false

/-- Kernel paddle.add. -/
def add (x1 x2 : Tensor) : Tensor :=
  ⟨x1.dtype, List.zipWith (scalarAdd x1.dtype) x1.data x2.data⟩

/-- Kernel paddle.subtract. -/
def subtract (x1 x2 : Tensor) : Tensor :=
  ⟨x1.dtype, List.zipWith (scalarSub x1.dtype) x1.data x2.data⟩

/-- Kernel paddle.multiply. -/
def multiply (x1 x2 : Tensor) : Tensor :=
  ⟨x1.dtype, List.zipWith (scalarMul x1.dtype) x1.data x2.data⟩

/-- Kernel paddle.less_equal (boolean result). -/
def less_equal (x1 x2 : Tensor) : Tensor :=
  ⟨.bool, List.zipWith (fun a b => Scalar.bool (scalarLe a b)) x1.data x2.data⟩

/-- Kernel paddle.less_than (boolean result). -/
def less_than (x1 x2 : Tensor) : Tensor :=
  ⟨.bool, List.zipWith (fun a b => Scalar.bool (scalarLt a b)) x1.data x2.data⟩

/-- Kernel paddle.greater_equal (boolean result). -/
def greater_equal (x1 x2 : Tensor) : Tensor :=
  ⟨.bool, List.zipWith (fun a b => Scalar.bool (scalarLe b a)) x1.data x2.data⟩

/-- Kernel paddle.greater_than (boolean result). -/
def greater_than (x1 x2 : Tensor) : Tensor :=
  ⟨.bool, List.zipWith (fun a b => Scalar.bool (scalarLt b a)) x1.data x2.data⟩

/-- Kernel paddle.logical_and (by scalar truthiness). -/
def logical_and (x1 x2 : Tensor) : Tensor :=
  ⟨.bool, List.zipWith (fun a b => Scalar.bool (truthy a && truthy b)) x1.data x2.data⟩

/-- Kernel paddle.logical_or. -/
def logical_or (x1 x2 : Tensor) : Tensor :=
  ⟨.bool, List.zipWith (fun a b => Scalar.bool (truthy a || truthy b)) x1.data x2.data⟩

/-- Kernel paddle.logical_not. -/
def logical_not (x : Tensor) : Tensor :=
  ⟨.bool, x.data.map (fun a => Scalar.bool (!truthy a))⟩

/-- Kernel paddle.isnan (elementwise NaN test; false on non-float
elements). -/
def isnan (x : Tensor) : Tensor :=
  ⟨.bool, x.data.map (fun s =>
    match s with
    | .real v => Scalar.bool (v = .nan)
    | .complex re im => Scalar.bool (re = .nan ∨ im = .nan)
    | _ => Scalar.bool false)⟩

/-- Kernel paddle.isinf (elementwise infinity test, either sign; false on
non-float elements). -/
def isinf (x : Tensor) : Tensor :=
  ⟨.bool, x.data.map (fun s =>
    match s with
    | .real v => Scalar.bool (v = .posInf ∨ v = .negInf)
    | _ => Scalar.bool false)⟩

/-- Operator ~ on a tensor (used by equal on boolean tensors). -/
def invert (x : Tensor) : Tensor :=
  ⟨x.dtype, x.data.map (fun s =>
    match s with
    | .bool b => Scalar.bool (!b)
    | .int n => Scalar.int (wrapInt x.dtype (-(n + 1)))
    | s => s)⟩

/-- Scalar action of Tensor.real(). -/
def realPartS : Scalar → Scalar
  | .complex re _ => .real re
  | s => s

/-- Scalar action of Tensor.imag(). -/
def imagPartS : Scalar → Scalar
  | .complex _ im => .real im
  | _ => .real (.finite 0)

/-- Tensor.real(): real parts as a float tensor; identity on non-complex
elements.  The dtype drops from complexN to the matching float. -/
def realPart (x : Tensor) : Tensor :=
  ⟨(if x.dtype = .complex128 then .float64
    else if x.dtype = .complex64 then .float32 else x.dtype),
   x.data.map realPartS⟩

/-- Tensor.imag(). -/
def imagPart (x : Tensor) : Tensor :=
  ⟨(if x.dtype = .complex128 then .float64
    else if x.dtype = .complex64 then .float32 else x.dtype),
   x.data.map imagPartS⟩

/-- Kernel paddle.zeros at a dtype (only the boolean form is used by the
excerpt's isinf). -/
def zeros (n : Nat) (d : DType) : Tensor :=
  ⟨d, List.replicate n (castScalar d (.int 0))⟩

/-- Scalar action of paddle.trunc: truncation toward zero on float
elements, identity on integers. -/
def scalarTruncF : Scalar → Scalar
  | .real (.finite q) => .real (.finite (ratTrunc q))
  | .real v => .real v
  | s => s

/-- Kernel paddle.trunc. -/
def trunc (x : Tensor) : Tensor :=
  ⟨x.dtype, x.data.map scalarTruncF⟩

/-- Magnitude of an extended value. -/
def fabs : FVal → FVal
  | .finite q => .finite |q|
  | .nan => .nan
  | _ => .posInf

/-- Scalar action of paddle.abs at a dtype.  The complex magnitude uses the
rational square-root approximation Rat.sqrt as a stand-in for the float
kernel; no claim depends on its value. -/
def scalarAbsF (d : DType) : Scalar → Scalar
  | .int n => .int (wrapInt d |n|)
  | .real v => .real (fabs v)
  | .bool b => .bool b
  | .complex (.finite a) (.finite b) => .real (.finite (Rat.sqrt (a * a + b * b)))
  | .complex a b => .real (if a = .nan ∨ b = .nan then .nan else .posInf)

/-- Kernel paddle.abs. -/
def abs (x : Tensor) : Tensor :=
  ⟨x.dtype, x.data.map (scalarAbsF x.dtype)⟩

/-- Kernel paddle.sqrt on extended values, via the rational square-root
approximation Rat.sqrt as a stand-in for the float kernel; negative inputs
give NaN.  No claim depends on the finite values it produces. -/
def fsqrt : FVal → FVal
  | .finite q => if q < 0 then .nan else .finite (Rat.sqrt q)
  | .posInf => .posInf
  | .negInf => .nan
  | .nan => .nan

/-- Kernel paddle.sqrt. -/
def sqrt (x : Tensor) : Tensor :=
  ⟨x.dtype, x.data.map (fun s =>
    match s with
    | .real v => Scalar.real (fsqrt v)
    | s => s)⟩

/-- Kernel paddle.complex: pair two float tensors into a complex tensor. -/
def complexT (re im : Tensor) : Tensor :=
  ⟨(if re.dtype = .float64 then .complex128 else .complex64),
   List.zipWith (fun a b => Scalar.complex (scalarToF a) (scalarToF b)) re.data im.data⟩

end paddle

/-! The adapter module's functions, translated statement by statement from
`ivy/functional/backends/paddle/elementwise.py`. -/

/-- Helper _elementwise_helper: promote the two inputs, broadcast them, and
return them with the promoted dtype. -/
def _elementwise_helper (x1 x2 : PyVal) : Tensor × Tensor × DType :=
  let p := promote_types_of_inputs x1 x2
  let b := broadcast_arrays p.1 p.2
  (b.1, b.2, b.1.dtype)

/-- Adapter multiply: upcast int8/int16/uint8/float16 operands to float32,
invoke the kernel, cast back to the promoted dtype. -/
def multiply (x1 x2 : PyVal) : Tensor :=
  let h := _elementwise_helper x1 x2
  let y1 := h.1
  let y2 := h.2.1
  let ret_dtype := h.2.2
  if y1.dtype ∈ [DType.int8, DType.int16, DType.uint8, DType.float16] then
    astype (paddle.multiply (astype y1 .float32) (astype y2 .float32)) ret_dtype
  else astype (paddle.multiply y1 y2) ret_dtype

/-- Test for the Python condition alpha not in (1, None): a tensor alpha is
conservatively treated as different from 1. -/
def alphaNotOne : Option PyVal → Bool
  | none => false
  | some (.pyInt n) => decide (n ≠ 1)
  | some (.pyFloat v) => decide (v ≠ .finite 1)
  | some (.tensor _) => true

/-- Adapter add: upcast int8/uint8/float16/bool/bfloat16 operands to
float32, scale the second operand when alpha is given and differs from 1,
invoke the kernel, cast back to the promoted dtype. -/
def add (x1 x2 : PyVal) (alpha : Option PyVal) : Tensor :=
  let h := _elementwise_helper x1 x2
  let ret_dtype := h.2.2
  let p :=
    if h.1.dtype ∈ [DType.int8, DType.uint8, DType.float16, DType.bool, DType.bfloat16]
    then (astype h.1 .float32, astype h.2.1 .float32) else (h.1, h.2.1)
  if alphaNotOne alpha then
    let z2 := multiply (.tensor p.2) (alpha.getD (.pyInt 1))
    let q := promote_types_of_inputs (.tensor p.1) (.tensor z2)
    astype (paddle.add q.1 q.2) ret_dtype
  else astype (paddle.add p.1 p.2) ret_dtype

/-- Adapter subtract: upcast int8/uint8/float16/bool operands to float32,
scale the second operand when alpha is given and differs from 1, invoke the
kernel, cast back to the promoted dtype. -/
def subtract (x1 x2 : PyVal) (alpha : Option PyVal) : Tensor :=
  let h := _elementwise_helper x1 x2
  let ret_dtype := h.2.2
  let p :=
    if h.1.dtype ∈ [DType.int8, DType.uint8, DType.float16, DType.bool]
    then (astype h.1 .float32, astype h.2.1 .float32) else (h.1, h.2.1)
  if alphaNotOne alpha then
    let z2 := multiply (.tensor p.2) (alpha.getD (.pyInt 1))
    let q := promote_types_of_inputs (.tensor p.1) (.tensor z2)
    astype (paddle.subtract q.1 q.2) ret_dtype
  else astype (paddle.subtract p.1 p.2) ret_dtype

/-- Adapter logical_and: upcast to float32 when the promoted dtype is
uint8/float16/complex64/complex128 (the commented-out complex expansion in
the source is dead code), else invoke the kernel directly. -/
def logical_and (x1 x2 : PyVal) : Tensor :=
  let h := _elementwise_helper x1 x2
  if h.2.2 ∈ [DType.uint8, DType.float16, DType.complex64, DType.complex128] then
    paddle.logical_and (astype h.1 .float32) (astype h.2.1 .float32)
  else paddle.logical_and h.1 h.2.1

/-- Adapter logical_or, with the componentwise expansion on complex
operands. -/
def logical_or (x1 x2 : PyVal) : Tensor :=
  let h := _elementwise_helper x1 x2
  if h.2.2 ∈ [DType.uint8, DType.float16, DType.complex64, DType.complex128] then
    if h.1.dtype.isComplexB then
      paddle.logical_or
        (paddle.logical_or (paddle.realPart h.1) (paddle.realPart h.2.1))
        (paddle.logical_or (paddle.imagPart h.1) (paddle.imagPart h.2.1))
    else paddle.logical_or (astype h.1 .float32) (astype h.2.1 .float32)
  else paddle.logical_or h.1 h.2.1

/-- Adapter isnan: complex tensors test either component, small int and bool
dtypes go through float32, else the kernel directly. -/
def isnan (x : Tensor) : Tensor :=
  if x.dtype ∈ [DType.int8, DType.int16, DType.uint8,
                DType.complex64, DType.complex128, DType.bool] then
    if x.dtype.isComplexB then
      paddle.logical_or (paddle.isnan (paddle.realPart x)) (paddle.isnan (paddle.imagPart x))
    else paddle.isnan (astype x .float32)
  else paddle.isnan x

/-- Adapter less_equal: complex operands compare componentwise joined by the
adapter's logical_and, int8/uint8 go through float32, else the kernel
directly.  The result is the kernel's boolean tensor. -/
def less_equal (x1 x2 : PyVal) : Tensor :=
  let h := _elementwise_helper x1 x2
  let y1 := h.1
  let y2 := h.2.1
  if y1.dtype ∈ [DType.int8, DType.uint8, DType.complex64, DType.complex128] then
    if y1.dtype.isComplexB then
      logical_and
        (.tensor (paddle.less_equal (paddle.realPart y1) (paddle.realPart y2)))
        (.tensor (paddle.less_equal (paddle.imagPart y1) (paddle.imagPart y2)))
    else paddle.less_equal (astype y1 .float32) (astype y2 .float32)
  else paddle.less_equal y1 y2

/-- Adapter less (same dispatch shape as less_equal, with the strict
kernel). -/
def less (x1 x2 : PyVal) : Tensor :=
  let h := _elementwise_helper x1 x2
  let y1 := h.1
  let y2 := h.2.1
  if y1.dtype ∈ [DType.int8, DType.uint8, DType.complex64, DType.complex128] then
    if y1.dtype.isComplexB then
      logical_and
        (.tensor (paddle.less_than (paddle.realPart y1) (paddle.realPart y2)))
        (.tensor (paddle.less_than (paddle.imagPart y1) (paddle.imagPart y2)))
    else paddle.less_than (astype y1 .float32) (astype y2 .float32)
  else paddle.less_than y1 y2

/-- Adapter greater (complex components joined by the paddle kernel's
logical_and). -/
def greater (x1 x2 : PyVal) : Tensor :=
  let h := _elementwise_helper x1 x2
  let y1 := h.1
  let y2 := h.2.1
  if y1.dtype ∈ [DType.int8, DType.uint8, DType.complex64, DType.complex128] then
    if y1.dtype.isComplexB then
      paddle.logical_and
        (paddle.greater_than (paddle.realPart y1) (paddle.realPart y2))
        (paddle.greater_than (paddle.imagPart y1) (paddle.imagPart y2))
    else paddle.greater_than (astype y1 .float32) (astype y2 .float32)
  else paddle.greater_than y1 y2

/-- Adapter greater_equal. -/
def greater_equal (x1 x2 : PyVal) : Tensor :=
  let h := _elementwise_helper x1 x2
  let y1 := h.1
  let y2 := h.2.1
  if y1.dtype ∈ [DType.int8, DType.uint8, DType.complex64, DType.complex128] then
    if y1.dtype.isComplexB then
      paddle.logical_and
        (paddle.greater_equal (paddle.realPart y1) (paddle.realPart y2))
        (paddle.greater_equal (paddle.imagPart y1) (paddle.imagPart y2))
    else paddle.greater_equal (astype y1 .float32) (astype y2 .float32)
  else paddle.greater_equal y1 y2

/-- Modelled from the spec: paddle_backend.where, an elementwise selection
operation of the backend whose implementation is not part of the excerpt —
applied independently to each element, keeping the second operand's element
where the condition element is true and the third's otherwise. -/
def where' (cond x1 x2 : Tensor) : Tensor :=
  ⟨promoteTypes x1.dtype x2.dtype,
   List.zipWith3 (fun c a b => if truthy c then a else b) cond.data x1.data x2.data⟩

/-- Adapter equal: a zero test of the subtraction, patched through where on
the NaN positions of the difference so that two NaN-free operands whose
difference is NaN (equal infinities) compare equal and any NaN operand
compares unequal. -/
def equal (x1 x2 : PyVal) : Tensor :=
  let h := _elementwise_helper x1 x2
  let y1 := h.1
  let y2 := h.2.1
  let diff := subtract (.tensor y1) (.tensor y2) none
  let ret := logical_and
    (.tensor (less_equal (.tensor diff) (.pyInt 0)))
    (.tensor (greater_equal (.tensor diff) (.pyInt 0)))
  where' (isnan diff)
    (paddle.invert (logical_or (.tensor (isnan y1)) (.tensor (isnan y2))))
    ret

/-- Scalar-level action of the adapter's equal on two float elements, as
composed from subtraction, the zero tests and the NaN patch: when the
difference is NaN the result is the negated NaN test of the operands,
otherwise the conjunction of the two zero comparisons of the difference. -/
def eqScalarF (a b : FVal) : Bool :=
  if fsub a b = .nan then !(decide (a = .nan) || decide (b = .nan))
  else fleq (fsub a b) (.finite 0) && fleq (.finite 0) (fsub a b)

/-- Adapter not_equal: kernel negation of the adapter's equal. -/
def not_equal (x1 x2 : PyVal) : Tensor :=
  paddle.logical_not (equal x1 x2)

/-- Adapter isinf: the kernel when both signs are requested, an equality
test against the requested signed infinity when only one is, and an
all-false boolean tensor when neither is. -/
def isinf (x : Tensor) (detect_positive detect_negative : Bool) : Tensor :=
  if detect_negative && detect_positive then paddle.isinf x
  else if detect_negative then equal (.tensor x) (.pyFloat .negInf)
  else if detect_positive then equal (.tensor x) (.pyFloat .posInf)
  else paddle.zeros x.data.length .bool

/-- Helper _determine_sqrt_dtype_cast: the (intermediate, output) casting
dtypes for sqrt on a non-native dtype. -/
def _determine_sqrt_dtype_cast (d : DType) : Option DType × Option DType :=
  if d ∈ [DType.int8, DType.int16, DType.int32, DType.uint8, DType.bool] then
    (some .float32, some .float32)
  else if d = .int64 then (some .float64, some .float64)
  else if d = .float16 then (some .float32, some .float16)
  else if d = .bfloat16 then (some .float32, some .bfloat16)
  else (none, none)

/-- Adapter sqrt.  The complex branch's transcendental polar formula has no
rational model, so the whole development is parametric in it (csqrt); the
claims constrain sqrt only on non-complex dtypes, which never reach that
branch.  A raised ValueError is modelled as Except.error.  (The source
checks only the intermediate dtype before casting; the middle error case
below is unreachable because the table never pairs an intermediate dtype
with a missing output dtype.) -/
def sqrt (csqrt : Tensor → Tensor) (x : Tensor) : Except String Tensor :=
  if x.dtype.isComplexB then .ok (csqrt x)
  else if x.dtype ∈ [DType.float32, DType.float64] then .ok (paddle.sqrt x)
  else
    match _determine_sqrt_dtype_cast x.dtype with
    | (some idt, some odt) => .ok (astype (paddle.sqrt (astype x idt)) odt)
    | (some _, none) => .error "astype with missing output dtype"
    | (none, _) => .error "Unsupported data type for sqrt"

/-- Adapter trunc: complex tensors truncate componentwise, small int, bool
and float16 dtypes go through float32, else the kernel directly. -/
def trunc (x : Tensor) : Tensor :=
  if x.dtype ∈ [DType.int8, DType.int16, DType.uint8, DType.float16,
                DType.complex64, DType.complex128, DType.bool] then
    if x.dtype.isComplexB then
      paddle.complexT (paddle.trunc (paddle.realPart x)) (paddle.trunc (paddle.imagPart x))
    else astype (paddle.trunc (astype x .float32)) x.dtype
  else paddle.trunc x

/-- The pair of promoted and broadcast operands produced by
_elementwise_helper on two tensor inputs. -/
def promotedPair (t1 t2 : Tensor) : Tensor × Tensor :=
  broadcast_arrays (astype t1 (promoteTypes t1.dtype t2.dtype))
    (astype t2 (promoteTypes t1.dtype t2.dtype))

/-- The scalar function the adapter's trunc applies at each element of a
tensor of dtype d: truncation through the dispatch path that d selects. -/
def truncPointwise (d : DType) (s : Scalar) : Scalar :=
  if d ∈ [DType.int8, DType.int16, DType.uint8, DType.float16,
          DType.complex64, DType.complex128, DType.bool] then
    if d.isComplexB then
      .complex (scalarToF (paddle.scalarTruncF (paddle.realPartS s)))
        (scalarToF (paddle.scalarTruncF (paddle.imagPartS s)))
    else castScalar d (paddle.scalarTruncF (castScalar .float32 s))
  else paddle.scalarTruncF s

/-- The scalar function the adapter's abs applies at each element of a
tensor of dtype d. -/
def absPointwise (d : DType) (s : Scalar) : Scalar :=
  if d ∈ [DType.int8, DType.int16, DType.uint8,
          DType.float16, DType.bfloat16, DType.bool] then
    castScalar d (paddle.scalarAbsF .float32 (castScalar .float32 s))
  else paddle.scalarAbsF d s

/-- Adapter abs: a bare Python scalar is first materialised as a one-element
tensor at the default dtype of its kind; small int, bool and 16-bit float
dtypes go through float32, else the kernel directly. -/
def abs (x : PyVal) : Tensor :=
  let t :=
    match x with
    | .tensor t => t
    | .pyInt n => ⟨.int32, [Scalar.int (wrapInt .int32 n)]⟩
    | .pyFloat v => ⟨.float32, [Scalar.real v]⟩
  if t.dtype ∈ [DType.int8, DType.int16, DType.uint8,
                DType.float16, DType.bfloat16, DType.bool] then
    astype (paddle.abs (astype t .float32)) t.dtype
  else paddle.abs t

end IvyPaddle

/-! Model of `ivy_tests/test_ivy/helpers/test_parameter_flags.py`: the
hypothesis strategy bookkeeping (flags_mapping / build_flag) and the flag
holder classes with their apply_flags methods. -/

namespace IvyFlags

/-- A hypothesis search strategy, modelled symbolically: the module declares
just-values, booleans, one-element lists of booleans, and two composite
strategies. -/
inductive Strategy where
  | just (b : Bool)
  | booleans
  | listsOfBooleans
  | composite (nm : String)
deriving DecidableEq

/-- The module-level DynamicFlag globals with their declared initial
strategies (the value of globals() as far as DynamicFlag variables go). -/
def initialGlobals : List (String × Option Strategy) :=
  [("BuiltNativeArrayStrategy", some .listsOfBooleans),
   ("BuiltAsVariableStrategy", some (.composite "_as_varaible_strategy")),
   ("BuiltContainerStrategy", some .listsOfBooleans),
   ("BuiltInstanceStrategy", some .booleans),
   ("BuiltInplaceStrategy", some (.just false)),
   ("BuiltGradientStrategy", some (.composite "_gradient_strategy")),
   ("BuiltWithOutStrategy", some .booleans),
   ("BuiltCompileStrategy", some .booleans),
   ("BuiltFrontendArrayStrategy", some .booleans),
   ("BuiltTranspileStrategy", some (.just false)),
   ("BuiltPrecisionModeStrategy", some .booleans)]

/-- The flags_mapping dictionary, key for key as in the source (note the
"inplace" entry maps to the name "BuiltInplace"). -/
def flags_mapping : List (String × String) :=
  [("native_array", "BuiltNativeArrayStrategy"),
   ("as_variable", "BuiltAsVariableStrategy"),
   ("container", "BuiltContainerStrategy"),
   ("instance_method", "BuiltInstanceStrategy"),
   ("test_gradients", "BuiltGradientStrategy"),
   ("with_out", "BuiltWithOutStrategy"),
   ("inplace", "BuiltInplace"),
   ("test_compile", "BuiltCompileStrategy"),
   ("transpile", "BuiltTranspileStrategy"),
   ("precision_mode", "BuiltPrecisionModeStrategy")]

/-- Assignment to the strategy attribute of a named DynamicFlag global. -/
def setVar (g : List (String × Option Strategy)) (nm : String) (v : Option Strategy) :
    List (String × Option Strategy) :=
  g.map (fun p => if p.1 = nm then (p.1, v) else p)

/-- build_flag: wrap a non-None value in st.just, assert the mapped name is
a declared global, then set that global's strategy.  A missing mapping key
raises KeyError and a failed assertion raises AssertionError, both modelled
as Except.error. -/
def build_flag (g : List (String × Option Strategy)) (key : String) (value : Option Bool) :
    Except String (List (String × Option Strategy)) :=
  let valueS : Option Strategy := value.map .just
  match flags_mapping.lookup key with
  | none => .error "KeyError"
  | some nm =>
    if (g.map Prod.fst).contains nm then .ok (setVar g nm valueS)
    else .error (nm ++ " is not a valid flag variable.")

/-- A value produced by apply_flags for one raw argument: the materialised
backend array, optionally wrapped as a gradient-tracked variable, a native
array, and the test container.  `container a bc bd` stands for the Python
dict structure with a at key "a", bc at key "b"/"c" and bd at key "b"/"d". -/
inductive TestValue (α : Type) where
  | arr (entry : α) (dtype : String) (device : String)
  | varTracked (v : TestValue α)
  | native (v : TestValue α)
  | container (a : TestValue α) (bc : TestValue α) (bd : TestValue α)
deriving DecidableEq

/-- Body of one apply_flags loop iteration at absolute index i: materialise
the entry, then apply the variable, native-array and (when the holder has
container flags) container wraps in the source's order.  Python list
indexing out of range raises IndexError, modelled as none. -/
def applyOne (as_var nat_arr cont : List Bool) (useContainer : Bool)
    (dts : List String) (dev : String) (i : Nat) (entry : α) : Option (TestValue α) := do
  let dt ← dts.get? i
  let x := TestValue.arr entry dt dev
  let av ← as_var.get? i
  let x := if av then TestValue.varTracked x else x
  let na ← nat_arr.get? i
  let x := if na then TestValue.native x else x
  if useContainer then
    let c ← cont.get? i
    pure (if c then TestValue.container x x x else x)
  else
    pure x

/-- The enumerate(args_to_iterate, start=offset) loop shared by every
apply_flags method: indices run from the offset, results keep the raw
order. -/
def applyLoop (f : Nat → α → Option β) : Nat → List α → Option (List β)
  | _, [] => some []
  | i, a :: rest => do
    let b ← f i a
    let bs ← applyLoop f (i + 1) rest
    pure (b :: bs)

/-- Flag holder FunctionTestFlags. -/
structure FunctionTestFlags where
  ground_truth_backend : String
  num_positional_args : Nat
  with_out : Bool
  instance_method : Bool
  as_variable : List Bool
  native_arrays : List Bool
  container : List Bool
  test_gradients : Bool
  test_compile : Bool
  precision_mode : Bool
deriving DecidableEq

/-- FunctionTestFlags.apply_flags (wraps containers). -/
def FunctionTestFlags.apply_flags (self : FunctionTestFlags) (args : List α)
    (input_dtypes : List String) (offset : Nat) (on_device : String) :
    Option (List (TestValue α)) :=
  applyLoop
    (applyOne self.as_variable self.native_arrays self.container true input_dtypes on_device)
    offset args

/-- Flag holder FrontendFunctionTestFlags. -/
structure FrontendFunctionTestFlags where
  num_positional_args : Nat
  with_out : Bool
  inplace : Bool
  as_variable : List Bool
  native_arrays : List Bool
  test_compile : Bool
  generate_frontend_arrays : Bool
  transpile : Bool
  precision_mode : Bool
deriving DecidableEq

/-- FrontendFunctionTestFlags.apply_flags (no container wrap). -/
def FrontendFunctionTestFlags.apply_flags (self : FrontendFunctionTestFlags) (args : List α)
    (input_dtypes : List String) (offset : Nat) (on_device : String) :
    Option (List (TestValue α)) :=
  applyLoop
    (applyOne self.as_variable self.native_arrays [] false input_dtypes on_device)
    offset args

/-- Flag holder InitMethodTestFlags. -/
structure InitMethodTestFlags where
  num_positional_args : Nat
  as_variable : List Bool
  native_arrays : List Bool
  precision_mode : Bool
deriving DecidableEq

/-- InitMethodTestFlags.apply_flags (no container wrap). -/
def InitMethodTestFlags.apply_flags (self : InitMethodTestFlags) (args : List α)
    (input_dtypes : List String) (offset : Nat) (on_device : String) :
    Option (List (TestValue α)) :=
  applyLoop
    (applyOne self.as_variable self.native_arrays [] false input_dtypes on_device)
    offset args

/-- Flag holder MethodTestFlags. -/
structure MethodTestFlags where
  num_positional_args : Nat
  as_variable : List Bool
  native_arrays : List Bool
  container : List Bool
  precision_mode : Bool
deriving DecidableEq

/-- MethodTestFlags.apply_flags (wraps containers). -/
def MethodTestFlags.apply_flags (self : MethodTestFlags) (args : List α)
    (input_dtypes : List String) (offset : Nat) (on_device : String) :
    Option (List (TestValue α)) :=
  applyLoop
    (applyOne self.as_variable self.native_arrays self.container true input_dtypes on_device)
    offset args

/-- Flag holder FrontendMethodTestFlags. -/
structure FrontendMethodTestFlags where
  num_positional_args : Nat
  as_variable : List Bool
  native_arrays : List Bool
  precision_mode : Bool
  test_compile : Bool
deriving DecidableEq

/-- FrontendMethodTestFlags.apply_flags (no container wrap). -/
def FrontendMethodTestFlags.apply_flags (self : FrontendMethodTestFlags) (args : List α)
    (input_dtypes : List String) (offset : Nat) (on_device : String) :
    Option (List (TestValue α)) :=
  applyLoop
    (applyOne self.as_variable self.native_arrays [] false input_dtypes on_device)
    offset args

/-- The j-th value apply_flags is specified to produce: the j-th raw value
materialised at dtype input_dtypes[offset+j], conditionally wrapped as
variable, native array and container per the flag lists at offset+j. -/
def expectedEntry (av na : Bool) (cont : Option Bool) (entry : α) (dt dev : String) :
    TestValue α :=
  let x := TestValue.arr entry dt dev
  let x := if av then TestValue.varTracked x else x
  let x := if na then TestValue.native x else x
  match cont with
  | some true => TestValue.container x x x
  | _ => x

end IvyFlags

/-! Heap model for the frame-effect claim: tensor and test-value objects
live in an append-only store, references are indices into it; the
operations of both modules allocate fresh objects and never write to
existing cells. -/

namespace IvyHeap

open IvyPaddle IvyFlags

/-- Allocation of a fresh object: append to the store, return the fresh
reference. -/
def alloc (h : List β) (v : β) : List β × Nat := (h ++ [v], h.length)

/-- Heap model of the adapter's positive on a tensor argument: the source
returns x.clone(), a freshly allocated tensor holding the input's value. -/
def positive (h : List Tensor) (r : Nat) : List Tensor × Nat :=
  alloc h (h.getD r default)

/-- State visible to an apply_flags call: the flag holder's fields, the raw
argument list it iterates, and the object store. -/
structure FlagEnv (α : Type) where
  flags : FunctionTestFlags
  args : List α
  heap : List (TestValue α)
deriving DecidableEq

/-- One conditional wrap inside the heap-level loop body: when the flag is
set, read the current object and allocate the wrapped object. -/
def wrapStep (b : Bool) (f : TestValue α → TestValue α) (junk : TestValue α)
    (p : List (TestValue α) × Nat) : List (TestValue α) × Nat :=
  if b then alloc p.1 (f (p.1.getD p.2 junk)) else p

/-- Heap-level body of one FunctionTestFlags.apply_flags iteration: each
wrap reads the current value and allocates a new object. -/
def applyOneH (fl : FunctionTestFlags) (dts : List String) (dev : String)
    (i : Nat) (entry : α) (h : List (TestValue α)) :
    Option (List (TestValue α) × Nat) := do
  let dt ← dts.get? i
  let x0 : TestValue α := .arr entry dt dev
  let p := alloc h x0
  let av ← fl.as_variable.get? i
  let p := wrapStep av .varTracked x0 p
  let na ← fl.native_arrays.get? i
  let p := wrapStep na .native x0 p
  let c ← fl.container.get? i
  let p := wrapStep c (fun x => .container x x x) x0 p
  pure p

/-- Heap-level apply_flags loop, threading the store and collecting result
references. -/
def applyLoopH (fl : FunctionTestFlags) (dts : List String) (dev : String) :
    Nat → List α → List (TestValue α) → Option (List (TestValue α) × List Nat)
  | _, [], h => some (h, [])
  | i, a :: rest, h => do
    let p ← applyOneH fl dts dev i a h
    let q ← applyLoopH fl dts dev (i + 1) rest p.1
    pure (q.1, p.2 :: q.2)

/-- Heap-level FunctionTestFlags.apply_flags: the translation touches the
environment only through allocation; the holder fields and raw argument
list are read, never assigned. -/
def apply_flagsH (e : FlagEnv α) (dts : List String) (offset : Nat) (dev : String) :
    FlagEnv α × Option (List Nat) :=
  match applyLoopH e.flags dts dev offset e.args e.heap with
  | some (h, rs) => (⟨e.flags, e.args, h⟩, some rs)
  | none => (e, none)

end IvyHeap

/-! Model over the real numbers of the hand-expanded complex branches of
cosh and sin (the finite-precision float kernels are idealised as the exact
real functions, which is the level at which the identity claim lives). -/

namespace IvyComplex

/-- One element of the complex branch of the adapter's cosh:
paddle.complex(paddle.cosh(re) * paddle.cos(im), paddle.sinh(re) * paddle.sin(im)). -/
noncomputable def coshComplexVal (z : ℂ) : ℂ :=
  ⟨Real.cosh z.re * Real.cos z.im, Real.sinh z.re * Real.sin z.im⟩

/-- One element of the complex branch of the adapter's sin:
paddle.complex(paddle.sin(re) * paddle.cosh(im), paddle.cos(re) * paddle.sinh(im)). -/
noncomputable def sinComplexVal (z : ℂ) : ℂ :=
  ⟨Real.sin z.re * Real.cosh z.im, Real.cos z.re * Real.sinh z.im⟩

/-- The complex branch of the adapter's cosh over a complex tensor's
elements. -/
noncomputable def coshComplexBranch (l : List ℂ) : List ℂ := l.map coshComplexVal

/-- The complex branch of the adapter's sin over a complex tensor's
elements. -/
noncomputable def sinComplexBranch (l : List ℂ) : List ℂ := l.map sinComplexVal

end IvyComplex

/-! Shared helper lemmas. -/

namespace IvyPaddle

theorem promoteTypes_self (d : DType) : promoteTypes d d = d := by
  unfold promoteTypes; simp

theorem broadcast_arrays_dtype (x1 x2 : Tensor) :
    (broadcast_arrays x1 x2).1.dtype = x1.dtype ∧ (broadcast_arrays x1 x2).2.dtype = x2.dtype := by
  unfold broadcast_arrays
  split
  · exact ⟨rfl, rfl⟩
  split
  · exact ⟨rfl, rfl⟩
  split
  · exact ⟨rfl, rfl⟩
  · exact ⟨rfl, rfl⟩

theorem logical_and_dtype (x1 x2 : PyVal) : (logical_and x1 x2).dtype = .bool := by
  unfold logical_and
  simp only []
  split <;> rfl

theorem less_dtype (x1 x2 : PyVal) : (less x1 x2).dtype = .bool := by
  unfold less
  simp only []
  split
  · split
    · exact logical_and_dtype _ _
    · rfl
  · rfl

theorem less_equal_dtype (x1 x2 : PyVal) : (less_equal x1 x2).dtype = .bool := by
  unfold less_equal
  simp only []
  split
  · split
    · exact logical_and_dtype _ _
    · rfl
  · rfl

theorem greater_dtype (x1 x2 : PyVal) : (greater x1 x2).dtype = .bool := by
  unfold greater
  simp only []
  split
  · split
    · rfl
    · rfl
  · rfl

theorem greater_equal_dtype (x1 x2 : PyVal) : (greater_equal x1 x2).dtype = .bool := by
  unfold greater_equal
  simp only []
  split
  · split
    · rfl
    · rfl
  · rfl

theorem complex_cosh_mk (a b : ℝ) :
    Complex.cosh ⟨a, b⟩ = ⟨Real.cosh a * Real.cos b, Real.sinh a * Real.sin b⟩ := by
  rw [Complex.mk_eq_add_mul_I, Complex.cosh_add, Complex.cosh_mul_I, Complex.sinh_mul_I]
  apply Complex.ext <;>
    simp [Complex.cosh_ofReal_re, Complex.sinh_ofReal_re, Complex.cos_ofReal_re,
      Complex.sin_ofReal_re, Complex.cosh_ofReal_im, Complex.sinh_ofReal_im,
      Complex.cos_ofReal_im, Complex.sin_ofReal_im]

theorem complex_sin_mk (a b : ℝ) :
    Complex.sin ⟨a, b⟩ = ⟨Real.sin a * Real.cosh b, Real.cos a * Real.sinh b⟩ := by
  rw [Complex.mk_eq_add_mul_I, Complex.sin_add, Complex.cos_mul_I, Complex.sin_mul_I]
  apply Complex.ext <;>
    simp [Complex.cosh_ofReal_re, Complex.sinh_ofReal_re, Complex.cos_ofReal_re,
      Complex.sin_ofReal_re, Complex.cosh_ofReal_im, Complex.sinh_ofReal_im,
      Complex.cos_ofReal_im, Complex.sin_ofReal_im]

end IvyPaddle

/-! Claim theorems. -/

open IvyPaddle in
/-- C5, settled as a code bug: build_flag is claimed to pass its assertion
for every key of flags_mapping, but the mapping sends "inplace" to the name
"BuiltInplace" while the declared module global is "BuiltInplaceStrategy",
so build_flag("inplace", value) fails its assertion (modelled as
Except.error) for either boolean value, while every other key passes and
sets its strategy variable. -/
theorem claim5_build_flag_inplace_assertion_fails :
    IvyFlags.build_flag IvyFlags.initialGlobals "inplace" (some true) =
      Except.error "BuiltInplace is not a valid flag variable." ∧
    IvyFlags.build_flag IvyFlags.initialGlobals "inplace" (some false) =
      Except.error "BuiltInplace is not a valid flag variable." ∧
    (["native_array", "as_variable", "container", "instance_method", "test_gradients",
      "with_out", "test_compile", "transpile", "precision_mode"].all fun k =>
        (match IvyFlags.build_flag IvyFlags.initialGlobals k (some true) with
         | .ok _ => true
         | .error _ => false) &&
        (match IvyFlags.build_flag IvyFlags.initialGlobals k (some false) with
         | .ok g => decide (g = IvyFlags.setVar IvyFlags.initialGlobals
             ((IvyFlags.flags_mapping.lookup k).getD "") (some (.just false)))
         | .error _ => false)) = true := by
  refine ⟨rfl, rfl, ?_⟩
  rfl

/-- C3: the hand-expanded complex branches of cosh and sin in the adapter
(complex(cosh(Re x)cos(Im x), sinh(Re x)sin(Im x)) and
complex(sin(Re x)cosh(Im x), cos(Re x)sinh(Im x))) agree elementwise with
the mathematical complex hyperbolic cosine and complex sine. -/
theorem claim3_complex_cosh_sin_identity (l : List ℂ) :
    IvyComplex.coshComplexBranch l = l.map Complex.cosh ∧
    IvyComplex.sinComplexBranch l = l.map Complex.sin := by
  constructor
  · unfold IvyComplex.coshComplexBranch
    apply List.map_congr_left
    intro z _
    unfold IvyComplex.coshComplexVal
    rw [← IvyPaddle.complex_cosh_mk]
  · unfold IvyComplex.sinComplexBranch
    apply List.map_congr_left
    intro z _
    unfold IvyComplex.sinComplexVal
    rw [← IvyPaddle.complex_sin_mk]

open IvyPaddle in
/-- C6: on every non-complex dtype handled by the adapter, sqrt returns a
result (never the ValueError branch): float32/float64 use the native kernel
directly, and every other handled dtype is assigned intermediate and output
casts by _determine_sqrt_dtype_cast.  The statement is parametric in the
complex-branch kernel, which is never reached under the hypothesis. -/
theorem claim6_sqrt_no_valueerror (csqrt : Tensor → Tensor) (x : Tensor)
    (h : x.dtype ∈ [DType.bool, DType.int8, DType.int16, DType.int32, DType.int64,
      DType.uint8, DType.float16, DType.bfloat16, DType.float32, DType.float64]) :
    (∃ t, sqrt csqrt x = .ok t) ∧
    (x.dtype ∈ [DType.float32, DType.float64] → sqrt csqrt x = .ok (paddle.sqrt x)) ∧
    (x.dtype ∉ [DType.float32, DType.float64] →
      ∃ i o, _determine_sqrt_dtype_cast x.dtype = (some i, some o) ∧
        sqrt csqrt x = .ok (astype (paddle.sqrt (astype x i)) o)) := by
  obtain ⟨d, data⟩ := x
  cases d <;>
    simp_all [sqrt, _determine_sqrt_dtype_cast, DType.isComplexB, DType.kind] <;>
    exact ⟨_, _, ⟨rfl, rfl⟩, rfl⟩

open IvyPaddle in
/-- Witness for C6: sqrt succeeds on a concrete int8 tensor (through the
casting table) and on a concrete float32 tensor (native kernel). -/
theorem claim6_sqrt_no_valueerror_witness :
    (∃ t, sqrt id (⟨.int8, [.int 4]⟩ : Tensor) = .ok t) ∧
    (∃ i o, _determine_sqrt_dtype_cast (⟨.int8, [.int 4]⟩ : Tensor).dtype = (some i, some o) ∧
      sqrt id (⟨.int8, [.int 4]⟩ : Tensor) =
        .ok (astype (paddle.sqrt (astype ⟨.int8, [.int 4]⟩ i)) o)) ∧
    sqrt id (⟨.float32, [.real (.finite 4)]⟩ : Tensor) =
      .ok (paddle.sqrt ⟨.float32, [.real (.finite 4)]⟩) :=
  ⟨(claim6_sqrt_no_valueerror id ⟨.int8, [.int 4]⟩ (by decide)).1,
   (claim6_sqrt_no_valueerror id ⟨.int8, [.int 4]⟩ (by decide)).2.2 (by decide),
   (claim6_sqrt_no_valueerror id ⟨.float32, [.real (.finite 4)]⟩ (by decide)).2.1 (by decide)⟩

namespace IvyPaddle

theorem promotedPair_dtype (t1 t2 : Tensor) :
    (promotedPair t1 t2).1.dtype = promoteTypes t1.dtype t2.dtype ∧
    (promotedPair t1 t2).2.dtype = promoteTypes t1.dtype t2.dtype :=
  broadcast_arrays_dtype _ _

theorem helper_tensor_eq (t1 t2 : Tensor) :
    _elementwise_helper (.tensor t1) (.tensor t2) =
      ((promotedPair t1 t2).1, (promotedPair t1 t2).2, promoteTypes t1.dtype t2.dtype) := by
  unfold _elementwise_helper promote_types_of_inputs promotedPair
  simp only []
  refine Prod.ext rfl (Prod.ext rfl ?_)
  exact (broadcast_arrays_dtype _ _).1

theorem add_dtype (x1 x2 : PyVal) (alpha : Option PyVal) :
    (add x1 x2 alpha).dtype = (_elementwise_helper x1 x2).2.2 := by
  unfold add
  simp only []
  split <;> rfl

theorem subtract_dtype (x1 x2 : PyVal) (alpha : Option PyVal) :
    (subtract x1 x2 alpha).dtype = (_elementwise_helper x1 x2).2.2 := by
  unfold subtract
  simp only []
  split <;> rfl

theorem multiply_dtype (x1 x2 : PyVal) :
    (multiply x1 x2).dtype = (_elementwise_helper x1 x2).2.2 := by
  unfold multiply
  simp only []
  split <;> rfl

end IvyPaddle

open IvyPaddle in
/-- C1: add, subtract and multiply always return a tensor of the promoted
result dtype of their two inputs (for any alpha), and when the promoted
dtype is one the native kernel does not support (add: int8, uint8, float16,
bool, bfloat16; subtract: int8, uint8, float16, bool; multiply: int8,
int16, uint8, float16) both promoted, broadcast operands are upcast to
float32, the native kernel is invoked, and the result is cast back to the
promoted dtype. -/
theorem claim1_arith_promoted_dtype_and_upcast (t1 t2 : Tensor) (alpha : Option PyVal) :
    (add (.tensor t1) (.tensor t2) alpha).dtype = promoteTypes t1.dtype t2.dtype ∧
    (subtract (.tensor t1) (.tensor t2) alpha).dtype = promoteTypes t1.dtype t2.dtype ∧
    (multiply (.tensor t1) (.tensor t2)).dtype = promoteTypes t1.dtype t2.dtype ∧
    (promoteTypes t1.dtype t2.dtype ∈
        [DType.int8, DType.uint8, DType.float16, DType.bool, DType.bfloat16] →
      add (.tensor t1) (.tensor t2) none =
        astype (paddle.add (astype (promotedPair t1 t2).1 .float32)
            (astype (promotedPair t1 t2).2 .float32)) (promoteTypes t1.dtype t2.dtype)) ∧
    (promoteTypes t1.dtype t2.dtype ∈ [DType.int8, DType.uint8, DType.float16, DType.bool] →
      subtract (.tensor t1) (.tensor t2) none =
        astype (paddle.subtract (astype (promotedPair t1 t2).1 .float32)
            (astype (promotedPair t1 t2).2 .float32)) (promoteTypes t1.dtype t2.dtype)) ∧
    (promoteTypes t1.dtype t2.dtype ∈ [DType.int8, DType.int16, DType.uint8, DType.float16] →
      multiply (.tensor t1) (.tensor t2) =
        astype (paddle.multiply (astype (promotedPair t1 t2).1 .float32)
            (astype (promotedPair t1 t2).2 .float32)) (promoteTypes t1.dtype t2.dtype)) := by
  refine ⟨?_, ?_, ?_, ?_, ?_, ?_⟩
  · rw [add_dtype, helper_tensor_eq]
  · rw [subtract_dtype, helper_tensor_eq]
  · rw [multiply_dtype, helper_tensor_eq]
  · intro hmem
    unfold add
    rw [helper_tensor_eq]
    simp only [alphaNotOne, (promotedPair_dtype t1 t2).1]
    rw [if_pos hmem]
    simp
  · intro hmem
    unfold subtract
    rw [helper_tensor_eq]
    simp only [alphaNotOne, (promotedPair_dtype t1 t2).1]
    rw [if_pos hmem]
    simp
  · intro hmem
    unfold multiply
    rw [helper_tensor_eq]
    simp only [(promotedPair_dtype t1 t2).1]
    rw [if_pos hmem]

open IvyPaddle in
/-- Witness for C1 on two concrete int8 tensors, whose promoted dtype int8
triggers the float32 upcast in all three operations. -/
theorem claim1_arith_promoted_dtype_and_upcast_witness :
    (add (.tensor ⟨.int8, [.int 3]⟩) (.tensor ⟨.int8, [.int 5]⟩) none).dtype =
      promoteTypes .int8 .int8 ∧
    add (.tensor ⟨.int8, [.int 3]⟩) (.tensor ⟨.int8, [.int 5]⟩) none =
      astype (paddle.add (astype (promotedPair ⟨.int8, [.int 3]⟩ ⟨.int8, [.int 5]⟩).1 .float32)
          (astype (promotedPair ⟨.int8, [.int 3]⟩ ⟨.int8, [.int 5]⟩).2 .float32))
        (promoteTypes .int8 .int8) ∧
    subtract (.tensor ⟨.int8, [.int 3]⟩) (.tensor ⟨.int8, [.int 5]⟩) none =
      astype (paddle.subtract (astype (promotedPair ⟨.int8, [.int 3]⟩ ⟨.int8, [.int 5]⟩).1 .float32)
          (astype (promotedPair ⟨.int8, [.int 3]⟩ ⟨.int8, [.int 5]⟩).2 .float32))
        (promoteTypes .int8 .int8) ∧
    multiply (.tensor ⟨.int8, [.int 3]⟩) (.tensor ⟨.int8, [.int 5]⟩) =
      astype (paddle.multiply (astype (promotedPair ⟨.int8, [.int 3]⟩ ⟨.int8, [.int 5]⟩).1 .float32)
          (astype (promotedPair ⟨.int8, [.int 3]⟩ ⟨.int8, [.int 5]⟩).2 .float32))
        (promoteTypes .int8 .int8) := by
  have h := claim1_arith_promoted_dtype_and_upcast ⟨.int8, [.int 3]⟩ ⟨.int8, [.int 5]⟩ none
  exact ⟨h.1, h.2.2.2.1 (by decide), h.2.2.2.2.1 (by decide), h.2.2.2.2.2 (by decide)⟩

open IvyPaddle in
/-- C4 counterexample: on two int64 tensors, less returns a boolean tensor,
not a tensor of the promoted result dtype int64, so the comparison
operations do not cast their result back to the promoted dtype. -/
theorem claim4_counterexample :
    ¬ ((less (.tensor ⟨.int64, [.int 1]⟩) (.tensor ⟨.int64, [.int 2]⟩)).dtype
        = promoteTypes .int64 .int64) := by
  decide

open IvyPaddle in
/-- C4, amended: every elementwise comparison operation (less, less_equal,
greater, greater_equal) returns a tensor of boolean dtype for every pair of
inputs; the promoted dtype computed by the helper only governs how the
operands are cast before comparison and the result is never cast back to
it. -/
theorem claim4_comparisons_return_bool_dtype (x1 x2 : PyVal) :
    (less x1 x2).dtype = .bool ∧ (less_equal x1 x2).dtype = .bool ∧
    (greater x1 x2).dtype = .bool ∧ (greater_equal x1 x2).dtype = .bool :=
  ⟨less_dtype x1 x2, less_equal_dtype x1 x2, greater_dtype x1 x2, greater_equal_dtype x1 x2⟩

namespace IvyPaddle

theorem trunc_data_map (x : Tensor) :
    (trunc x).data = x.data.map (truncPointwise x.dtype) := by
  unfold trunc
  split
  · rename_i hmem
    split
    · rename_i hc
      simp only [paddle.complexT, paddle.trunc, paddle.realPart, paddle.imagPart,
        List.map_map, List.zipWith_map_left, List.zipWith_map_right, List.zipWith_same]
      apply List.map_congr_left
      intro s _
      simp [truncPointwise, hmem, hc, Function.comp]
    · rename_i hc
      simp only [astype, paddle.trunc, List.map_map]
      apply List.map_congr_left
      intro s _
      simp [truncPointwise, hmem, hc, Function.comp]
  · rename_i hmem
    simp only [paddle.trunc]
    apply List.map_congr_left
    intro s _
    simp [truncPointwise, hmem]

theorem abs_data_map (t : Tensor) :
    (IvyPaddle.abs (.tensor t)).data = t.data.map (absPointwise t.dtype) := by
  unfold IvyPaddle.abs
  simp only []
  split
  · rename_i hmem
    simp only [astype, paddle.abs, List.map_map]
    apply List.map_congr_left
    intro s _
    simp [absPointwise, hmem, Function.comp]
  · rename_i hmem
    simp only [paddle.abs]
    apply List.map_congr_left
    intro s _
    simp [absPointwise, hmem]

end IvyPaddle

open IvyPaddle in
/-- C7: the unary elementwise operations trunc and abs are pointwise: for a
tensor of dtype d there is a scalar function of the operation and d
(truncPointwise / absPointwise) mapped over the elements, and consequently
two inputs of the same dtype that agree at an index produce outputs that
agree at that index. -/
theorem claim7_trunc_abs_pointwise (x : Tensor) :
    (trunc x).data = x.data.map (truncPointwise x.dtype) ∧
    (IvyPaddle.abs (.tensor x)).data = x.data.map (absPointwise x.dtype) ∧
    (∀ (y : Tensor) (i : Nat), y.dtype = x.dtype → x.data.get? i = y.data.get? i →
      (trunc x).data.get? i = (trunc y).data.get? i ∧
      (IvyPaddle.abs (.tensor x)).data.get? i = (IvyPaddle.abs (.tensor y)).data.get? i) := by
  refine ⟨trunc_data_map x, abs_data_map x, ?_⟩
  intro y i hdt hi
  constructor
  · rw [trunc_data_map x, trunc_data_map y, hdt]
    simp only [List.get?_eq_getElem?, List.getElem?_map]
    rw [show x.data[i]? = y.data[i]? by simpa [List.get?_eq_getElem?] using hi]
  · rw [abs_data_map x, abs_data_map y, hdt]
    simp only [List.get?_eq_getElem?, List.getElem?_map]
    rw [show x.data[i]? = y.data[i]? by simpa [List.get?_eq_getElem?] using hi]

open IvyPaddle in
/-- Witness for C7: a float16 singleton and a float16 pair agreeing at
index 0 give trunc and abs outputs agreeing at index 0. -/
theorem claim7_trunc_abs_pointwise_witness :
    (trunc ⟨.float16, [.real (.finite 3)]⟩).data
      = [Scalar.real (.finite 3)].map (truncPointwise .float16) ∧
    (trunc ⟨.float16, [.real (.finite 3)]⟩).data.get? 0
      = (trunc ⟨.float16, [.real (.finite 3), .real .nan]⟩).data.get? 0 ∧
    (IvyPaddle.abs (.tensor ⟨.float16, [.real (.finite 3)]⟩)).data.get? 0
      = (IvyPaddle.abs (.tensor ⟨.float16, [.real (.finite 3), .real .nan]⟩)).data.get? 0 := by
  have h := claim7_trunc_abs_pointwise ⟨.float16, [.real (.finite 3)]⟩
  have h2 := h.2.2 ⟨.float16, [.real (.finite 3), .real .nan]⟩ 0 (by decide) (by decide)
  exact ⟨h.1, h2.1, h2.2⟩

namespace IvyFlags

theorem get?_eq_some_getD {β : Type} {l : List β} {i : Nat} (d : β) (h : i < l.length) :
    l.get? i = some (l.getD i d) := by
  rw [List.getD_eq_getD_get?]
  cases hq : l.get? i with
  | none => exact absurd (List.get?_eq_none.mp hq) (Nat.not_le.mpr h)
  | some a => rfl

theorem applyOne_eq {α : Type} (as_var nat_arr cont : List Bool) (useC : Bool)
    (dts : List String) (dev : String) (i : Nat) (entry : α)
    (h1 : i < dts.length) (h2 : i < as_var.length) (h3 : i < nat_arr.length)
    (h4 : useC = true → i < cont.length) :
    applyOne as_var nat_arr cont useC dts dev i entry =
      some (expectedEntry (as_var.getD i false) (nat_arr.getD i false)
        (if useC then some (cont.getD i false) else none) entry (dts.getD i "") dev) := by
  unfold applyOne
  rw [get?_eq_some_getD "" h1, get?_eq_some_getD false h2, get?_eq_some_getD false h3]
  cases useC with
  | false => simp [expectedEntry]
  | true =>
    rw [get?_eq_some_getD false (h4 rfl)]
    cases hcont : cont.getD i false <;> simp [expectedEntry, hcont]

theorem applyLoop_eq {α β : Type} (f : Nat → α → Option β) (g : Nat → α → β)
    (args : List α) :
    ∀ (offset : Nat),
      (∀ j a, args.get? j = some a → f (offset + j) a = some (g (offset + j) a)) →
      applyLoop f offset args = some (args.mapIdx (fun j a => g (offset + j) a)) := by
  induction args with
  | nil => intro offset _; rfl
  | cons a rest ih =>
    intro offset h
    unfold applyLoop
    have h0 := h 0 a rfl
    rw [Nat.add_zero] at h0
    rw [h0]
    have hrec := ih (offset + 1) (fun j b hb => by
      have := h (j + 1) b (by simpa using hb)
      rwa [show offset + (j + 1) = offset + 1 + j by omega] at this)
    rw [hrec]
    simp only [List.mapIdx_cons, Option.bind_some]
    refine congrArg some ?_
    refine List.cons_eq_cons.mpr ⟨by rw [Nat.add_zero], ?_⟩
    congr 1
    funext j b
    congr 1
    omega

theorem apply_flags_generic {α : Type} (as na co : List Bool) (useC : Bool)
    (args : List α) (dts : List String) (offset : Nat) (dev : String)
    (ha : offset + args.length ≤ as.length) (hn : offset + args.length ≤ na.length)
    (hd : offset + args.length ≤ dts.length)
    (hc : useC = true → offset + args.length ≤ co.length) :
    applyLoop (applyOne as na co useC dts dev) offset args =
      some (args.mapIdx fun j a =>
        expectedEntry (as.getD (offset + j) false) (na.getD (offset + j) false)
          (if useC then some (co.getD (offset + j) false) else none) a
          (dts.getD (offset + j) "") dev) := by
  refine applyLoop_eq (applyOne as na co useC dts dev)
    (fun i a => expectedEntry (as.getD i false) (na.getD i false)
      (if useC then some (co.getD i false) else none) a (dts.getD i "") dev)
    args offset ?_
  intro j a hja
  have hj : j < args.length := by
    by_contra hlt
    rw [List.get?_eq_none.mpr (Nat.le_of_not_lt hlt)] at hja
    exact Option.noConfusion hja
  exact applyOne_eq as na co useC dts dev (offset + j) a (by omega) (by omega) (by omega)
    (fun hu => by have := hc hu; omega)

end IvyFlags

open IvyFlags in
/-- C2: for each of the five flag holders, apply_flags returns the list of
the raw arguments in order, the j-th materialised at dtype
input_dtypes[offset+j] and wrapped as gradient-tracked variable, native
array and (for FunctionTestFlags and MethodTestFlags) the test container
according to the flag lists at index offset+j, under the in-range
conditions Python indexing needs. -/
theorem claim2_apply_flags_materialisation {α : Type}
    (f1 : FunctionTestFlags) (f2 : FrontendFunctionTestFlags)
    (f3 : InitMethodTestFlags) (f4 : MethodTestFlags) (f5 : FrontendMethodTestFlags)
    (args : List α) (dts : List String) (offset : Nat) (dev : String)
    (hd : offset + args.length ≤ dts.length)
    (h1a : offset + args.length ≤ f1.as_variable.length)
    (h1n : offset + args.length ≤ f1.native_arrays.length)
    (h1c : offset + args.length ≤ f1.container.length)
    (h2a : offset + args.length ≤ f2.as_variable.length)
    (h2n : offset + args.length ≤ f2.native_arrays.length)
    (h3a : offset + args.length ≤ f3.as_variable.length)
    (h3n : offset + args.length ≤ f3.native_arrays.length)
    (h4a : offset + args.length ≤ f4.as_variable.length)
    (h4n : offset + args.length ≤ f4.native_arrays.length)
    (h4c : offset + args.length ≤ f4.container.length)
    (h5a : offset + args.length ≤ f5.as_variable.length)
    (h5n : offset + args.length ≤ f5.native_arrays.length) :
    f1.apply_flags args dts offset dev =
      some (args.mapIdx fun j a =>
        expectedEntry (f1.as_variable.getD (offset + j) false)
          (f1.native_arrays.getD (offset + j) false)
          (some (f1.container.getD (offset + j) false)) a (dts.getD (offset + j) "") dev) ∧
    f2.apply_flags args dts offset dev =
      some (args.mapIdx fun j a =>
        expectedEntry (f2.as_variable.getD (offset + j) false)
          (f2.native_arrays.getD (offset + j) false)
          none a (dts.getD (offset + j) "") dev) ∧
    f3.apply_flags args dts offset dev =
      some (args.mapIdx fun j a =>
        expectedEntry (f3.as_variable.getD (offset + j) false)
          (f3.native_arrays.getD (offset + j) false)
          none a (dts.getD (offset + j) "") dev) ∧
    f4.apply_flags args dts offset dev =
      some (args.mapIdx fun j a =>
        expectedEntry (f4.as_variable.getD (offset + j) false)
          (f4.native_arrays.getD (offset + j) false)
          (some (f4.container.getD (offset + j) false)) a (dts.getD (offset + j) "") dev) ∧
    f5.apply_flags args dts offset dev =
      some (args.mapIdx fun j a =>
        expectedEntry (f5.as_variable.getD (offset + j) false)
          (f5.native_arrays.getD (offset + j) false)
          none a (dts.getD (offset + j) "") dev) := by
  refine ⟨?_, ?_, ?_, ?_, ?_⟩
  · simpa using apply_flags_generic f1.as_variable f1.native_arrays f1.container true
      args dts offset dev h1a h1n hd (fun _ => h1c)
  · simpa using apply_flags_generic f2.as_variable f2.native_arrays [] false
      args dts offset dev h2a h2n hd (by simp)
  · simpa using apply_flags_generic f3.as_variable f3.native_arrays [] false
      args dts offset dev h3a h3n hd (by simp)
  · simpa using apply_flags_generic f4.as_variable f4.native_arrays f4.container true
      args dts offset dev h4a h4n hd (fun _ => h4c)
  · simpa using apply_flags_generic f5.as_variable f5.native_arrays [] false
      args dts offset dev h5a h5n hd (by simp)

open IvyFlags in
/-- Witness for C2 on concrete two-element data with offset 1. -/
theorem claim2_apply_flags_materialisation_witness :
    FunctionTestFlags.apply_flags
        ⟨"torch", 2, false, false, [false, true, false], [false, false, true],
          [false, true, true], false, false, false⟩
        [(7 : ℤ), 8] ["f64", "f32", "i64"] 1 "cpu" =
      some ([(7 : ℤ), 8].mapIdx fun j a =>
        expectedEntry ([false, true, false].getD (1 + j) false)
          ([false, false, true].getD (1 + j) false)
          (some ([false, true, true].getD (1 + j) false)) a
          (["f64", "f32", "i64"].getD (1 + j) "") "cpu") ∧
    InitMethodTestFlags.apply_flags ⟨2, [false, true, false], [false, false, true], false⟩
        [(7 : ℤ), 8] ["f64", "f32", "i64"] 1 "cpu" =
      some ([(7 : ℤ), 8].mapIdx fun j a =>
        expectedEntry ([false, true, false].getD (1 + j) false)
          ([false, false, true].getD (1 + j) false)
          none a (["f64", "f32", "i64"].getD (1 + j) "") "cpu") := by
  have h := claim2_apply_flags_materialisation
    (α := ℤ)
    ⟨"torch", 2, false, false, [false, true, false], [false, false, true],
      [false, true, true], false, false, false⟩
    ⟨2, false, false, [false, true, false], [false, false, true], false, false, false, false⟩
    ⟨2, [false, true, false], [false, false, true], false⟩
    ⟨2, [false, true, false], [false, false, true], [false, true, true], false⟩
    ⟨2, [false, true, false], [false, false, true], false, false⟩
    [(7 : ℤ), 8] ["f64", "f32", "i64"] 1 "cpu"
    (by decide) (by decide) (by decide) (by decide) (by decide) (by decide)
    (by decide) (by decide) (by decide) (by decide) (by decide) (by decide) (by decide)
  exact ⟨h.1, h.2.2.1⟩

namespace IvyHeap

open IvyPaddle IvyFlags

theorem extends_trans {β : Type} {a b c : List β}
    (h1 : ∃ e, b = a ++ e) (h2 : ∃ e, c = b ++ e) : ∃ e, c = a ++ e := by
  obtain ⟨e1, he1⟩ := h1
  obtain ⟨e2, he2⟩ := h2
  exact ⟨e1 ++ e2, by rw [he2, he1, List.append_assoc]⟩

theorem wrapStep_extends {α : Type} (b : Bool) (f : TestValue α → TestValue α)
    (junk : TestValue α) (p : List (TestValue α) × Nat) :
    ∃ e, (wrapStep b f junk p).1 = p.1 ++ e := by
  unfold wrapStep alloc
  cases b
  · exact ⟨[], by simp⟩
  · exact ⟨[f (p.1.getD p.2 junk)], by simp⟩

theorem applyOneH_extends {α : Type} (fl : FunctionTestFlags) (dts : List String)
    (dev : String) (i : Nat) (a : α) (h h' : List (TestValue α)) (r : Nat)
    (he : applyOneH fl dts dev i a h = some (h', r)) : ∃ e, h' = h ++ e := by
  unfold applyOneH at he
  cases hdt : dts.get? i <;> rw [hdt] at he
  · exact Option.noConfusion he
  cases hav : fl.as_variable.get? i <;> rw [hav] at he
  · simp at he
  cases hna : fl.native_arrays.get? i <;> rw [hna] at he
  · simp at he
  cases hco : fl.container.get? i <;> rw [hco] at he
  · simp at he
  simp only [Option.pure_def, Option.bind_eq_bind, Option.some_bind, Option.some.injEq] at he
  have hfst := congrArg Prod.fst he
  dsimp only at hfst
  rw [← hfst]
  refine extends_trans (extends_trans (extends_trans ?_ (wrapStep_extends _ _ _ _))
    (wrapStep_extends _ _ _ _)) (wrapStep_extends _ _ _ _)
  exact ⟨_, rfl⟩

theorem applyLoopH_extends {α : Type} (fl : FunctionTestFlags) (dts : List String)
    (dev : String) (args : List α) :
    ∀ (i : Nat) (h h' : List (TestValue α)) (rs : List Nat),
      applyLoopH fl dts dev i args h = some (h', rs) → ∃ e, h' = h ++ e := by
  induction args with
  | nil =>
    intro i h h' rs he
    unfold applyLoopH at he
    simp only [Option.some.injEq] at he
    have hfst := congrArg Prod.fst he
    dsimp only at hfst
    exact ⟨[], by rw [← hfst]; simp⟩
  | cons a rest ih =>
    intro i h h' rs he
    unfold applyLoopH at he
    cases h1 : applyOneH fl dts dev i a h <;> rw [h1] at he
    · exact Option.noConfusion he
    rename_i p
    simp only [Option.pure_def, Option.bind_eq_bind, Option.some_bind] at he
    cases h2 : applyLoopH fl dts dev (i + 1) rest p.1 <;> rw [h2] at he
    · exact Option.noConfusion he
    rename_i q
    simp only [Option.some_bind, Option.some.injEq] at he
    have hfst := congrArg Prod.fst he
    dsimp only at hfst
    refine extends_trans (applyOneH_extends fl dts dev i a h p.1 p.2 (by rw [h1])) ?_
    rw [← hfst]
    exact ih (i + 1) p.1 q.1 q.2 (by rw [h2])

end IvyHeap

open IvyPaddle IvyFlags IvyHeap in
/-- C8: the modelled operations have no effect beyond their return value:
positive allocates a fresh clone (the result reference differs from the
input reference, existing store cells are untouched, and the clone holds
the input's value), and the heap-level FunctionTestFlags.apply_flags leaves
the holder's fields and the raw argument list unchanged and only extends
the object store. -/
theorem claim8_no_side_effects {α : Type} (h : List Tensor) (r : Nat)
    (hr : r < h.length) (e : FlagEnv α) (dts : List String) (offset : Nat) (dev : String) :
    (∀ i, i < h.length → (IvyHeap.positive h r).1.get? i = h.get? i) ∧
    (IvyHeap.positive h r).2 ≠ r ∧
    (IvyHeap.positive h r).1.get? (IvyHeap.positive h r).2 = h.get? r ∧
    (apply_flagsH e dts offset dev).1.flags = e.flags ∧
    (apply_flagsH e dts offset dev).1.args = e.args ∧
    (∀ i, i < e.heap.length →
      (apply_flagsH e dts offset dev).1.heap.get? i = e.heap.get? i) := by
  refine ⟨?_, ?_, ?_, ?_, ?_, ?_⟩
  · intro i hi
    exact List.get?_append hi
  · exact Nat.ne_of_gt hr
  · show (h ++ [h.getD r default]).get? h.length = h.get? r
    rw [List.get?_concat_length, IvyFlags.get?_eq_some_getD default hr]
  · unfold apply_flagsH
    cases hm : applyLoopH e.flags dts dev offset e.args e.heap <;> simp [hm]
  · unfold apply_flagsH
    cases hm : applyLoopH e.flags dts dev offset e.args e.heap <;> simp [hm]
  · intro i hi
    unfold apply_flagsH
    cases hm : applyLoopH e.flags dts dev offset e.args e.heap
    · simp [hm]
    · rename_i q
      simp only [hm]
      obtain ⟨ext, hext⟩ :=
        applyLoopH_extends e.flags dts dev e.args offset e.heap q.1 q.2 (by rw [hm])
      show q.1.get? i = e.heap.get? i
      rw [hext]
      exact List.get?_append hi

open IvyPaddle IvyFlags IvyHeap in
/-- Witness for C8 on a concrete two-tensor store and a concrete flag
environment. -/
theorem claim8_no_side_effects_witness :
    (IvyHeap.positive [(⟨.float32, []⟩ : Tensor), ⟨.int8, [.int 1]⟩] 0).1.get? 0 =
      [(⟨.float32, []⟩ : Tensor), ⟨.int8, [.int 1]⟩].get? 0 ∧
    (IvyHeap.positive [(⟨.float32, []⟩ : Tensor), ⟨.int8, [.int 1]⟩] 0).2 ≠ 0 ∧
    (IvyHeap.positive [(⟨.float32, []⟩ : Tensor), ⟨.int8, [.int 1]⟩] 0).1.get?
        (IvyHeap.positive [(⟨.float32, []⟩ : Tensor), ⟨.int8, [.int 1]⟩] 0).2 =
      [(⟨.float32, []⟩ : Tensor), ⟨.int8, [.int 1]⟩].get? 0 ∧
    (apply_flagsH
        (⟨⟨"torch", 1, false, false, [true], [false], [true], false, false, false⟩,
          [(5 : ℤ)], [.arr 9 "i8" "cpu"]⟩ : FlagEnv ℤ) ["f32"] 0 "cpu").1.flags =
      ⟨"torch", 1, false, false, [true], [false], [true], false, false, false⟩ ∧
    (apply_flagsH
        (⟨⟨"torch", 1, false, false, [true], [false], [true], false, false, false⟩,
          [(5 : ℤ)], [.arr 9 "i8" "cpu"]⟩ : FlagEnv ℤ) ["f32"] 0 "cpu").1.args = [(5 : ℤ)] ∧
    (apply_flagsH
        (⟨⟨"torch", 1, false, false, [true], [false], [true], false, false, false⟩,
          [(5 : ℤ)], [.arr 9 "i8" "cpu"]⟩ : FlagEnv ℤ) ["f32"] 0 "cpu").1.heap.get? 0 =
      some (.arr 9 "i8" "cpu") := by
  have h := claim8_no_side_effects
    [(⟨.float32, []⟩ : Tensor), ⟨.int8, [.int 1]⟩] 0 (by decide)
    (⟨⟨"torch", 1, false, false, [true], [false], [true], false, false, false⟩,
      [(5 : ℤ)], [.arr 9 "i8" "cpu"]⟩ : FlagEnv ℤ) ["f32"] 0 "cpu"
  refine ⟨h.1 0 (by decide), h.2.1, h.2.2.1, h.2.2.2.1, h.2.2.2.2.1, ?_⟩
  rw [h.2.2.2.2.2 0 (by decide)]
  rfl

namespace IvyPaddle

theorem zipWith_replicate_right {β γ δ : Type} (f : β → γ → δ) (l : List β) (c : γ) :
    List.zipWith f l (List.replicate l.length c) = l.map (fun a => f a c) := by
  induction l with
  | nil => rfl
  | cons a t ih => simp only [List.length_cons, List.replicate_succ, List.zipWith_cons_cons,
      List.map_cons, ih]

theorem zipWith_pair {A B γ δ ε : Type} (f : γ → δ → ε) (g : A → B → γ) (h : A → B → δ) :
    ∀ (u1 : List A) (u2 : List B),
      List.zipWith f (List.zipWith g u1 u2) (List.zipWith h u1 u2) =
        List.zipWith (fun a b => f (g a b) (h a b)) u1 u2 := by
  intro u1
  induction u1 with
  | nil => intro u2; rfl
  | cons a t ih => intro u2; cases u2 <;> simp [ih]

theorem zipWith3_triple {A B γ1 γ2 γ3 ε : Type} (f : γ1 → γ2 → γ3 → ε)
    (g1 : A → B → γ1) (g2 : A → B → γ2) (g3 : A → B → γ3) :
    ∀ (u1 : List A) (u2 : List B),
      List.zipWith3 f (List.zipWith g1 u1 u2) (List.zipWith g2 u1 u2) (List.zipWith g3 u1 u2) =
        List.zipWith (fun a b => f (g1 a b) (g2 a b) (g3 a b)) u1 u2 := by
  intro u1
  induction u1 with
  | nil => intro u2; rfl
  | cons a t ih => intro u2; cases u2 <;> simp [List.zipWith3, ih]

theorem map_as_zipWith_left {A B δ : Type} (g : A → δ) :
    ∀ (u1 : List A) (u2 : List B), u1.length = u2.length →
      u1.map g = List.zipWith (fun a _ => g a) u1 u2 := by
  intro u1
  induction u1 with
  | nil => intro u2 _; rfl
  | cons a t ih =>
    intro u2 hl
    cases u2 with
    | nil => exact absurd hl (by simp)
    | cons b t2 => simp only [List.map_cons, List.zipWith_cons_cons]
                   exact congrArg _ (ih t2 (by simpa using hl))

theorem map_as_zipWith_right {A B δ : Type} (g : B → δ) :
    ∀ (u1 : List A) (u2 : List B), u1.length = u2.length →
      u2.map g = List.zipWith (fun _ b => g b) u1 u2 := by
  intro u1
  induction u1 with
  | nil => intro u2 hl; rw [List.length_nil] at hl
           rw [(List.length_eq_zero.mp hl.symm)]; rfl
  | cons a t ih =>
    intro u2 hl
    cases u2 with
    | nil => exact absurd hl (by simp)
    | cons b t2 => simp only [List.map_cons, List.zipWith_cons_cons]
                   exact congrArg _ (ih t2 (by simpa using hl))

theorem kind2_of_float_mem {d : DType}
    (h : d ∈ [DType.float16, DType.bfloat16, DType.float32, DType.float64]) :
    d.kind = 2 := by
  simp only [List.mem_cons, List.not_mem_nil, or_false] at h
  rcases h with rfl | rfl | rfl | rfl <;> rfl

theorem kind2_not_cmp_list {d : DType} (hk : d.kind = 2) :
    d ∉ [DType.int8, DType.uint8, DType.complex64, DType.complex128] := by
  intro hm
  simp only [List.mem_cons, List.not_mem_nil, or_false] at hm
  rcases hm with rfl | rfl | rfl | rfl <;> simp [DType.kind] at hk

theorem kind2_not_isnan_list {d : DType} (hk : d.kind = 2) :
    d ∉ [DType.int8, DType.int16, DType.uint8,
         DType.complex64, DType.complex128, DType.bool] := by
  intro hm
  simp only [List.mem_cons, List.not_mem_nil, or_false] at hm
  rcases hm with rfl | rfl | rfl | rfl | rfl | rfl <;> simp [DType.kind] at hk

theorem kind2_not_complex {d : DType} (hk : d.kind = 2) : d.isComplexB = false := by
  unfold DType.isComplexB
  rw [hk]
  rfl

theorem sub_list_mem_iff {d : DType} (hk : d.kind = 2) :
    d ∈ [DType.int8, DType.uint8, DType.float16, DType.bool] ↔ d = .float16 := by
  constructor
  · intro hm
    simp only [List.mem_cons, List.not_mem_nil, or_false] at hm
    rcases hm with rfl | rfl | rfl | rfl
    · simp [DType.kind] at hk
    · simp [DType.kind] at hk
    · rfl
    · simp [DType.kind] at hk
  · intro h; subst h; simp

theorem astype_real {d : DType} (e : DType) (hk : d.kind = 2) (l : List FVal) :
    astype ⟨e, l.map .real⟩ d = ⟨d, l.map .real⟩ := by
  unfold astype
  simp only [List.map_map]
  refine congrArg _ (List.map_congr_left ?_)
  intro v _
  simp [castScalar, hk, scalarToF, Function.comp]

theorem astype_bools (e : DType) (bl : List Bool) :
    astype ⟨e, bl.map .bool⟩ .bool = ⟨.bool, bl.map .bool⟩ := by
  unfold astype
  simp only [List.map_map]
  refine congrArg _ (List.map_congr_left ?_)
  intro v _
  simp [castScalar, DType.kind, truthy, Function.comp]

theorem broadcast_same_length (a b : Tensor) (h : a.data.length = b.data.length) :
    broadcast_arrays a b = (a, b) := by
  unfold broadcast_arrays
  rw [if_pos h]

theorem broadcast_right_single (a : Tensor) (d2 : DType) (c : Scalar) :
    broadcast_arrays a ⟨d2, [c]⟩ = (a, ⟨d2, List.replicate a.data.length c⟩) := by
  unfold broadcast_arrays
  by_cases h : a.data.length = 1
  · rw [if_pos (by simpa using h)]
    rw [h]
    rfl
  · rw [if_neg (by simpa using h), if_neg h, if_pos (by simp)]
    rfl

end IvyPaddle

namespace IvyPaddle

theorem helper_real_eq {d : DType} (hk : d.kind = 2) (l1 l2 u1 u2 : List FVal)
    (hb : broadcast_arrays ⟨d, l1.map .real⟩ ⟨d, l2.map .real⟩ =
      (⟨d, u1.map .real⟩, ⟨d, u2.map .real⟩)) :
    _elementwise_helper (.tensor ⟨d, l1.map .real⟩) (.tensor ⟨d, l2.map .real⟩) =
      (⟨d, u1.map .real⟩, ⟨d, u2.map .real⟩, d) := by
  unfold _elementwise_helper promote_types_of_inputs
  dsimp only
  rw [promoteTypes_self, astype_real d hk l1, astype_real d hk l2, hb]

theorem helper_real_pyFloat_eq {d : DType} (hk : d.kind = 2) (l : List FVal) (v : FVal) :
    _elementwise_helper (.tensor ⟨d, l.map .real⟩) (.pyFloat v) =
      (⟨d, l.map .real⟩, ⟨d, (List.replicate l.length v).map .real⟩, d) := by
  unfold _elementwise_helper promote_types_of_inputs
  dsimp only
  rw [show scalarDtypeFor d (.pyFloat v) = d by simp [scalarDtypeFor, hk]]
  rw [promoteTypes_self, astype_real d hk l]
  rw [show pyToTensor d (.pyFloat v) = ⟨d, [Scalar.real v]⟩ by
    simp [pyToTensor, castScalar, hk, scalarToF]]
  rw [broadcast_right_single]
  simp [List.map_replicate]

theorem helper_real_pyInt0_eq {d : DType} (hk : d.kind = 2) (l : List FVal) :
    _elementwise_helper (.tensor ⟨d, l.map .real⟩) (.pyInt 0) =
      (⟨d, l.map .real⟩, ⟨d, (List.replicate l.length (FVal.finite 0)).map .real⟩, d) := by
  unfold _elementwise_helper promote_types_of_inputs
  dsimp only
  rw [show scalarDtypeFor d (.pyInt 0) = d by simp [scalarDtypeFor, hk]]
  rw [promoteTypes_self, astype_real d hk l]
  rw [show pyToTensor d (.pyInt 0) = ⟨d, [Scalar.real (.finite 0)]⟩ by
    simp [pyToTensor, castScalar, hk, scalarToF]]
  rw [broadcast_right_single]
  simp [List.map_replicate]

theorem helper_bools_eq (bl1 bl2 : List Bool) (hlen : bl1.length = bl2.length) :
    _elementwise_helper (.tensor ⟨.bool, bl1.map .bool⟩) (.tensor ⟨.bool, bl2.map .bool⟩) =
      (⟨.bool, bl1.map .bool⟩, ⟨.bool, bl2.map .bool⟩, .bool) := by
  unfold _elementwise_helper promote_types_of_inputs
  dsimp only
  rw [promoteTypes_self, astype_bools .bool bl1, astype_bools .bool bl2,
    broadcast_same_length _ _ (by simpa using hlen)]

theorem paddle_subtract_real (d1 d2 : DType) (l1 l2 : List FVal) :
    paddle.subtract ⟨d1, l1.map .real⟩ ⟨d2, l2.map .real⟩ =
      ⟨d1, (List.zipWith fsub l1 l2).map .real⟩ := by
  unfold paddle.subtract
  dsimp only
  rw [List.zipWith_map_left, List.zipWith_map_right, List.map_zipWith]
  rfl

theorem paddle_le_real (d1 d2 : DType) (l1 l2 : List FVal) :
    paddle.less_equal ⟨d1, l1.map .real⟩ ⟨d2, l2.map .real⟩ =
      ⟨.bool, (List.zipWith fleq l1 l2).map .bool⟩ := by
  unfold paddle.less_equal
  dsimp only
  rw [List.zipWith_map_left, List.zipWith_map_right, List.map_zipWith]
  rfl

theorem paddle_ge_real (d1 d2 : DType) (l1 l2 : List FVal) :
    paddle.greater_equal ⟨d1, l1.map .real⟩ ⟨d2, l2.map .real⟩ =
      ⟨.bool, (List.zipWith (fun a b => fleq b a) l1 l2).map .bool⟩ := by
  unfold paddle.greater_equal
  dsimp only
  rw [List.zipWith_map_left, List.zipWith_map_right, List.map_zipWith]
  rfl

theorem paddle_and_bools (e1 e2 : DType) (bl1 bl2 : List Bool) :
    paddle.logical_and ⟨e1, bl1.map .bool⟩ ⟨e2, bl2.map .bool⟩ =
      ⟨.bool, (List.zipWith and bl1 bl2).map .bool⟩ := by
  unfold paddle.logical_and
  dsimp only
  rw [List.zipWith_map_left, List.zipWith_map_right, List.map_zipWith]
  rfl

theorem paddle_or_bools (e1 e2 : DType) (bl1 bl2 : List Bool) :
    paddle.logical_or ⟨e1, bl1.map .bool⟩ ⟨e2, bl2.map .bool⟩ =
      ⟨.bool, (List.zipWith or bl1 bl2).map .bool⟩ := by
  unfold paddle.logical_or
  dsimp only
  rw [List.zipWith_map_left, List.zipWith_map_right, List.map_zipWith]
  rfl

theorem paddle_isnan_real (e : DType) (l : List FVal) :
    paddle.isnan ⟨e, l.map .real⟩ =
      ⟨.bool, (l.map (fun v => decide (v = .nan))).map .bool⟩ := by
  unfold paddle.isnan
  dsimp only
  simp only [List.map_map]
  refine congrArg _ (List.map_congr_left ?_)
  intro v _
  rfl

theorem paddle_invert_bools (bl : List Bool) :
    paddle.invert ⟨.bool, bl.map .bool⟩ = ⟨.bool, (bl.map not).map .bool⟩ := by
  unfold paddle.invert
  dsimp only
  simp only [List.map_map]
  refine congrArg _ (List.map_congr_left ?_)
  intro v _
  rfl

end IvyPaddle

namespace IvyPaddle

theorem subtract_real_mod {d : DType} (hk : d.kind = 2) (u1 u2 : List FVal)
    (hlen : u1.length = u2.length) :
    subtract (.tensor ⟨d, u1.map .real⟩) (.tensor ⟨d, u2.map .real⟩) none =
      ⟨d, (List.zipWith fsub u1 u2).map .real⟩ := by
  unfold subtract
  dsimp only
  rw [helper_real_eq hk u1 u2 u1 u2 (broadcast_same_length _ _ (by simpa using hlen))]
  dsimp only
  simp only [alphaNotOne, Bool.false_eq_true, if_false]
  by_cases hd : d = .float16
  · rw [if_pos ((sub_list_mem_iff hk).mpr hd)]
    rw [astype_real (d := .float32) d rfl u1, astype_real (d := .float32) d rfl u2]
    rw [paddle_subtract_real, astype_real (d := d) .float32 hk]
  · rw [if_neg (fun hm => hd ((sub_list_mem_iff hk).mp hm))]
    rw [paddle_subtract_real, astype_real (d := d) d hk]

theorem less_equal_pyInt0 {d : DType} (hk : d.kind = 2) (l : List FVal) :
    less_equal (.tensor ⟨d, l.map .real⟩) (.pyInt 0) =
      ⟨.bool, (l.map (fun v => fleq v (.finite 0))).map .bool⟩ := by
  unfold less_equal
  dsimp only
  rw [helper_real_pyInt0_eq hk l]
  dsimp only
  rw [if_neg (kind2_not_cmp_list hk)]
  rw [paddle_le_real, zipWith_replicate_right]

theorem greater_equal_pyInt0 {d : DType} (hk : d.kind = 2) (l : List FVal) :
    greater_equal (.tensor ⟨d, l.map .real⟩) (.pyInt 0) =
      ⟨.bool, (l.map (fun v => fleq (.finite 0) v)).map .bool⟩ := by
  unfold greater_equal
  dsimp only
  rw [helper_real_pyInt0_eq hk l]
  dsimp only
  rw [if_neg (kind2_not_cmp_list hk)]
  rw [paddle_ge_real, zipWith_replicate_right]

theorem logical_and_bools (bl1 bl2 : List Bool) (hlen : bl1.length = bl2.length) :
    logical_and (.tensor ⟨.bool, bl1.map .bool⟩) (.tensor ⟨.bool, bl2.map .bool⟩) =
      ⟨.bool, (List.zipWith and bl1 bl2).map .bool⟩ := by
  unfold logical_and
  dsimp only
  rw [helper_bools_eq bl1 bl2 hlen]
  dsimp only
  rw [if_neg (by decide)]
  exact paddle_and_bools _ _ _ _

theorem logical_or_bools (bl1 bl2 : List Bool) (hlen : bl1.length = bl2.length) :
    logical_or (.tensor ⟨.bool, bl1.map .bool⟩) (.tensor ⟨.bool, bl2.map .bool⟩) =
      ⟨.bool, (List.zipWith or bl1 bl2).map .bool⟩ := by
  unfold logical_or
  dsimp only
  rw [helper_bools_eq bl1 bl2 hlen]
  dsimp only
  rw [if_neg (by decide)]
  exact paddle_or_bools _ _ _ _

theorem isnan_real_mod {d : DType} (hk : d.kind = 2) (l : List FVal) :
    isnan ⟨d, l.map .real⟩ = ⟨.bool, (l.map (fun v => decide (v = .nan))).map .bool⟩ := by
  unfold isnan
  dsimp only
  rw [if_neg (kind2_not_isnan_list hk)]
  exact paddle_isnan_real d l

end IvyPaddle

namespace IvyPaddle

theorem equal_core {d : DType} (hk : d.kind = 2) (x1 x2 : PyVal) (u1 u2 : List FVal)
    (hlen : u1.length = u2.length)
    (hh : _elementwise_helper x1 x2 = (⟨d, u1.map .real⟩, ⟨d, u2.map .real⟩, d)) :
    equal x1 x2 = ⟨.bool, (List.zipWith eqScalarF u1 u2).map .bool⟩ := by
  unfold equal
  dsimp only
  rw [hh]
  dsimp only
  rw [subtract_real_mod hk u1 u2 hlen]
  rw [less_equal_pyInt0 hk, greater_equal_pyInt0 hk]
  rw [logical_and_bools _ _ (by simp)]
  rw [isnan_real_mod hk (List.zipWith fsub u1 u2), isnan_real_mod hk u1, isnan_real_mod hk u2]
  rw [logical_or_bools _ _ (by simp [hlen])]
  rw [paddle_invert_bools]
  unfold where'
  dsimp only
  congr 1
  simp only [List.map_zipWith, List.zipWith_map_left, List.zipWith_map_right,
    List.map_map, List.zipWith_same, zipWith_pair, zipWith3_triple]
  congr 1
  funext a b
  by_cases hnan : fsub a b = .nan <;>
    simp [eqScalarF, hnan, truthy, Function.comp]

theorem broadcast_real_lists (d : DType) (l1 l2 : List FVal)
    (compat : l1.length = l2.length ∨ l1.length = 1 ∨ l2.length = 1) :
    ∃ u1 u2 : List FVal, u1.length = u2.length ∧
      broadcast_arrays ⟨d, l1.map .real⟩ ⟨d, l2.map .real⟩ =
        (⟨d, u1.map .real⟩, ⟨d, u2.map .real⟩) := by
  by_cases heq : l1.length = l2.length
  · exact ⟨l1, l2, heq, broadcast_same_length _ _ (by simpa using heq)⟩
  rcases compat with h | h | h
  · exact absurd h heq
  · obtain ⟨a, rfl⟩ := List.length_eq_one.mp h
    refine ⟨List.replicate l2.length a, l2, by simp, ?_⟩
    unfold broadcast_arrays
    rw [if_neg (by simpa using heq), if_pos (by simp)]
    simp [List.map_replicate]
  · obtain ⟨c, rfl⟩ := List.length_eq_one.mp h
    refine ⟨l1, List.replicate l1.length c, by simp, ?_⟩
    have hb := broadcast_right_single ⟨d, l1.map .real⟩ d (Scalar.real c)
    simpa [List.map_replicate] using hb

theorem eqScalarF_nan_left (b : FVal) : eqScalarF .nan b = false := by
  cases b <;> simp [eqScalarF, fsub, fadd, fneg, fleq]

theorem eqScalarF_nan_right (a : FVal) : eqScalarF a .nan = false := by
  cases a <;> simp [eqScalarF, fsub, fadd, fneg, fleq]

theorem eqScalarF_refl (a : FVal) (hne : a ≠ .nan) : eqScalarF a a = true := by
  cases a with
  | finite q => simp [eqScalarF, fsub, fadd, fneg, fleq]
  | posInf => simp [eqScalarF, fsub, fadd, fneg, fleq]
  | negInf => simp [eqScalarF, fsub, fadd, fneg, fleq]
  | nan => exact absurd rfl hne

theorem eqScalarF_posInf (a : FVal) : eqScalarF a .posInf = decide (a = .posInf) := by
  cases a <;> simp [eqScalarF, fsub, fadd, fneg, fleq]

theorem eqScalarF_negInf (a : FVal) : eqScalarF a .negInf = decide (a = .negInf) := by
  cases a <;> simp [eqScalarF, fsub, fadd, fneg, fleq]

theorem paddle_isinf_real (e : DType) (l : List FVal) :
    paddle.isinf ⟨e, l.map .real⟩ =
      ⟨.bool, (l.map (fun v => decide (v = .posInf ∨ v = .negInf))).map .bool⟩ := by
  unfold paddle.isinf
  dsimp only
  simp only [List.map_map]
  refine congrArg _ (List.map_congr_left ?_)
  intro v _
  rfl

end IvyPaddle

open IvyPaddle in
/-- C9: for broadcast-compatible float tensors, equal is False at every
position where either broadcast operand is NaN, and True at every position
where both broadcast operands hold the same non-NaN value — including
positions where both are +infinity or both are -infinity, where the
internal subtraction yields NaN but neither operand is NaN. -/
theorem claim9_equal_nan_and_matching_values (d : DType)
    (hd : d ∈ [DType.float16, DType.bfloat16, DType.float32, DType.float64])
    (l1 l2 : List FVal)
    (compat : l1.length = l2.length ∨ l1.length = 1 ∨ l2.length = 1) :
    ∃ u1 u2 : List FVal, u1.length = u2.length ∧
      broadcast_arrays ⟨d, l1.map .real⟩ ⟨d, l2.map .real⟩ =
        (⟨d, u1.map .real⟩, ⟨d, u2.map .real⟩) ∧
      ∀ i a b, u1.get? i = some a → u2.get? i = some b →
        ((a = .nan ∨ b = .nan →
            (equal (.tensor ⟨d, l1.map .real⟩) (.tensor ⟨d, l2.map .real⟩)).data.get? i =
              some (.bool false)) ∧
         (a = b → a ≠ .nan →
            (equal (.tensor ⟨d, l1.map .real⟩) (.tensor ⟨d, l2.map .real⟩)).data.get? i =
              some (.bool true))) := by
  have hk := kind2_of_float_mem hd
  obtain ⟨u1, u2, hlen, hb⟩ := broadcast_real_lists d l1 l2 compat
  refine ⟨u1, u2, hlen, hb, ?_⟩
  intro i a b ha hbi
  have hc := equal_core hk _ _ u1 u2 hlen (helper_real_eq hk l1 l2 u1 u2 hb)
  rw [hc]
  dsimp only
  have hz : (List.zipWith eqScalarF u1 u2).get? i = some (eqScalarF a b) := by
    rw [List.get?_zipWith', ha, hbi]
    rfl
  have hmap : ((List.zipWith eqScalarF u1 u2).map Scalar.bool).get? i
      = some (Scalar.bool (eqScalarF a b)) := by
    simp only [List.get?_eq_getElem?, List.getElem?_map]
    rw [show (List.zipWith eqScalarF u1 u2)[i]? = some (eqScalarF a b) from by
      simpa [List.get?_eq_getElem?] using hz]
    rfl
  constructor
  · rintro (rfl | rfl)
    · rw [hmap, eqScalarF_nan_left]
    · rw [hmap, eqScalarF_nan_right]
  · rintro rfl hne
    rw [hmap, eqScalarF_refl a hne]

open IvyPaddle in
/-- Witness for C9 on two concrete float32 tensors holding NaN, matching
infinities and matching and differing finite values. -/
theorem claim9_equal_nan_and_matching_values_witness :
    ∃ u1 u2 : List FVal, u1.length = u2.length ∧
      broadcast_arrays ⟨.float32, [FVal.nan, .posInf, .negInf, .finite 3].map .real⟩
          ⟨.float32, [FVal.nan, .posInf, .negInf, .finite 3].map .real⟩ =
        (⟨.float32, u1.map .real⟩, ⟨.float32, u2.map .real⟩) ∧
      ∀ i a b, u1.get? i = some a → u2.get? i = some b →
        ((a = .nan ∨ b = .nan →
            (equal (.tensor ⟨.float32, [FVal.nan, .posInf, .negInf, .finite 3].map .real⟩)
                (.tensor ⟨.float32, [FVal.nan, .posInf, .negInf, .finite 3].map .real⟩)).data.get? i =
              some (.bool false)) ∧
         (a = b → a ≠ .nan →
            (equal (.tensor ⟨.float32, [FVal.nan, .posInf, .negInf, .finite 3].map .real⟩)
                (.tensor ⟨.float32, [FVal.nan, .posInf, .negInf, .finite 3].map .real⟩)).data.get? i =
              some (.bool true))) :=
  claim9_equal_nan_and_matching_values .float32 (by decide)
    [FVal.nan, .posInf, .negInf, .finite 3] [FVal.nan, .posInf, .negInf, .finite 3]
    (by decide)

open IvyPaddle in
/-- C10: isinf on a float tensor returns a boolean tensor of the input's
shape that is true at an index exactly when the positive flag is set and
the element is +infinity, or the negative flag is set and the element is
-infinity; with both flags cleared it is all-false. -/
theorem claim10_isinf_detect_flags (d : DType)
    (hd : d ∈ [DType.float16, DType.bfloat16, DType.float32, DType.float64])
    (l : List FVal) (dp dn : Bool) :
    (isinf ⟨d, l.map .real⟩ dp dn).dtype = .bool ∧
    (isinf ⟨d, l.map .real⟩ dp dn).data.length = l.length ∧
    (∀ i v, l.get? i = some v →
      (isinf ⟨d, l.map .real⟩ dp dn).data.get? i =
        some (.bool ((dp && decide (v = .posInf)) || (dn && decide (v = .negInf))))) := by
  have hk := kind2_of_float_mem hd
  cases dp <;> cases dn
  · -- neither flag: all-false boolean tensor
    refine ⟨rfl, by simp [isinf, paddle.zeros], ?_⟩
    intro i v hv
    have hi : i < l.length := by
      by_contra hlt
      rw [List.get?_eq_none.mpr (Nat.le_of_not_lt hlt)] at hv
      exact Option.noConfusion hv
    show (paddle.zeros (l.map Scalar.real).length .bool).data.get? i = _
    simp [paddle.zeros, List.get?_eq_getElem?, List.getElem?_replicate, hi,
      castScalar, DType.kind, truthy]
  · -- negative only: equality test against -infinity
    have hc := equal_core hk (.tensor ⟨d, l.map .real⟩) (.pyFloat .negInf) l
      (List.replicate l.length .negInf) (by simp)
      (helper_real_pyFloat_eq hk l .negInf)
    refine ⟨?_, ?_, ?_⟩
    · show (equal (.tensor ⟨d, l.map .real⟩) (.pyFloat .negInf)).dtype = .bool
      rw [hc]
    · show (equal (.tensor ⟨d, l.map .real⟩) (.pyFloat .negInf)).data.length = l.length
      rw [hc]
      simp
    · intro i v hv
      show (equal (.tensor ⟨d, l.map .real⟩) (.pyFloat .negInf)).data.get? i = _
      rw [hc]
      dsimp only
      rw [zipWith_replicate_right]
      simp only [List.map_map, List.get?_eq_getElem?, List.getElem?_map]
      rw [show l[i]? = some v from by simpa [List.get?_eq_getElem?] using hv]
      simp [eqScalarF_negInf, Function.comp]
  · -- positive only: equality test against +infinity
    have hc := equal_core hk (.tensor ⟨d, l.map .real⟩) (.pyFloat .posInf) l
      (List.replicate l.length .posInf) (by simp)
      (helper_real_pyFloat_eq hk l .posInf)
    refine ⟨?_, ?_, ?_⟩
    · show (equal (.tensor ⟨d, l.map .real⟩) (.pyFloat .posInf)).dtype = .bool
      rw [hc]
    · show (equal (.tensor ⟨d, l.map .real⟩) (.pyFloat .posInf)).data.length = l.length
      rw [hc]
      simp
    · intro i v hv
      show (equal (.tensor ⟨d, l.map .real⟩) (.pyFloat .posInf)).data.get? i = _
      rw [hc]
      dsimp only
      rw [zipWith_replicate_right]
      simp only [List.map_map, List.get?_eq_getElem?, List.getElem?_map]
      rw [show l[i]? = some v from by simpa [List.get?_eq_getElem?] using hv]
      simp [eqScalarF_posInf, Function.comp]
  · -- both flags: the native kernel
    refine ⟨?_, ?_, ?_⟩
    · show (paddle.isinf ⟨d, l.map .real⟩).dtype = .bool
      rw [paddle_isinf_real]
    · show (paddle.isinf ⟨d, l.map .real⟩).data.length = l.length
      rw [paddle_isinf_real]
      simp
    · intro i v hv
      show (paddle.isinf ⟨d, l.map .real⟩).data.get? i = _
      rw [paddle_isinf_real]
      dsimp only
      simp only [List.map_map, List.get?_eq_getElem?, List.getElem?_map]
      rw [show l[i]? = some v from by simpa [List.get?_eq_getElem?] using hv]
      simp [Function.comp, Bool.decide_or]

open IvyPaddle in
/-- Witness for C10 on a concrete float32 tensor in all four flag
configurations at index 0 and 1. -/
theorem claim10_isinf_detect_flags_witness :
    (isinf ⟨.float32, [FVal.posInf, .negInf, .nan, .finite 0].map .real⟩ true false).data.get? 0 =
      some (.bool true) ∧
    (isinf ⟨.float32, [FVal.posInf, .negInf, .nan, .finite 0].map .real⟩ true false).data.get? 1 =
      some (.bool false) ∧
    (isinf ⟨.float32, [FVal.posInf, .negInf, .nan, .finite 0].map .real⟩ false true).data.get? 1 =
      some (.bool true) ∧
    (isinf ⟨.float32, [FVal.posInf, .negInf, .nan, .finite 0].map .real⟩ true true).data.get? 2 =
      some (.bool false) ∧
    (isinf ⟨.float32, [FVal.posInf, .negInf, .nan, .finite 0].map .real⟩ false false).data.get? 0 =
      some (.bool false) ∧
    (isinf ⟨.float32, [FVal.posInf, .negInf, .nan, .finite 0].map .real⟩ false false).dtype =
      DType.bool := by
  have hpf := claim10_isinf_detect_flags .float32 (by decide)
    [FVal.posInf, .negInf, .nan, .finite 0] true false
  have hnf := claim10_isinf_detect_flags .float32 (by decide)
    [FVal.posInf, .negInf, .nan, .finite 0] false true
  have htt := claim10_isinf_detect_flags .float32 (by decide)
    [FVal.posInf, .negInf, .nan, .finite 0] true true
  have hff := claim10_isinf_detect_flags .float32 (by decide)
    [FVal.posInf, .negInf, .nan, .finite 0] false false
  refine ⟨?_, ?_, ?_, ?_, ?_, hff.1⟩
  · rw [hpf.2.2 0 .posInf rfl]
    rfl
  · rw [hpf.2.2 1 .negInf rfl]
    rfl
  · rw [hnf.2.2 1 .negInf rfl]
    rfl
  · rw [htt.2.2 2 .nan rfl]
    rfl
  · rw [hff.2.2 0 .posInf rfl]
    rfl
